import Mathlib

/-!
Verification of the wallet orchestration subsystem of the `dynamic` repository.

The TypeScript sources are shallowly embedded: JavaScript runtime values that
flow through the error-handling code are modelled by the inductive type `JsVal`,
pure functions of the source become Lean functions of the same name, and the
stateful provisioning orchestrator becomes a function from explicit store
snapshots to a (result, store, provider-call-count) triple.  Components of the
repository whose implementation files are not part of the source tree (the
chain registry, the encryption service, the shared `getErrorMessage` helper and
the EVM custody client of the api app) are modelled from the specification and
say so in their doc comments.
-/

set_option maxRecDepth 8000

/-! ## A model of JavaScript runtime values

The custody provider's errors reach the orchestrator as arbitrary JavaScript
values: strings, numbers, plain objects, `Error` instances, or NestJS
`HttpException` instances.  `JsVal` models exactly the shapes the embedded code
inspects.  An `Error` instance carries its `message`, its `stack` and any extra
own properties assigned to it; an `HttpException` carries its HTTP status, its
response body, its `message` and its `stack` (NestJS assigns `status` and
`response` as own properties of the exception object).  Field lists are their
own inductive (`JsFields`) so that all recursion over values is structural.
-/

mutual

inductive JsVal where
  | vnull : JsVal
  | vbool (b : Bool) : JsVal
  | vnum (n : Int) : JsVal
  | vstr (s : String) : JsVal
  | vobj (fields : JsFields) : JsVal
  | verr (message stack : String) (fields : JsFields) : JsVal
  | vhttp (status : Int) (response : JsVal) (message stack : String) : JsVal

inductive JsFields where
  | fnil : JsFields
  | fcons (key : String) (value : JsVal) (rest : JsFields) : JsFields

end

/-- Builds a field list from a Lean list literal. -/
def jsFieldsOf : List (String × JsVal) → JsFields
  | [] => .fnil
  | (k, v) :: rest => .fcons k v (jsFieldsOf rest)

/-- Convenience constructor for plain-object literals. -/
def JsVal.obj (fields : List (String × JsVal)) : JsVal := .vobj (jsFieldsOf fields)

/-- Convenience constructor for `Error`-instance literals. -/
def JsVal.err (message stack : String) (fields : List (String × JsVal)) : JsVal :=
  .verr message stack (jsFieldsOf fields)

/-- Property lookup in an object's own-field list: first binding wins. -/
def lookupField : JsFields → String → Option JsVal
  | .fnil, _ => none
  | .fcons k v rest, key => if k = key then some v else lookupField rest key

/-- JavaScript property access `v[key]`; `none` stands for `undefined`.
An `Error` instance exposes its non-enumerable `message` and `stack` own
properties as well as any extra assigned fields; an `HttpException` exposes
`status`, `response`, `message`, `stack` and `name`. -/
def getField : JsVal → String → Option JsVal
  | .vobj fs, key => lookupField fs key
  | .verr m s fs, key =>
      if key = "message" then some (.vstr m)
      else if key = "stack" then some (.vstr s)
      else lookupField fs key
  | .vhttp st r m sk, key =>
      if key = "status" then some (.vnum st)
      else if key = "response" then some r
      else if key = "message" then some (.vstr m)
      else if key = "stack" then some (.vstr sk)
      else if key = "name" then some (.vstr "HttpException")
      else none
  | _, _ => none

/-- JavaScript truthiness. -/
def truthy : JsVal → Bool
  | .vnull => false
  | .vbool b => b
  | .vnum n => n != 0
  | .vstr s => s ≠ ""
  | .vobj _ => true
  | .verr _ _ _ => true
  | .vhttp _ _ _ _ => true

/-- Lodash `isPlainObject`: true for plain objects only; `Error` and
`HttpException` instances have a non-Object prototype and are not plain. -/
def isPlainObjectV : JsVal → Bool
  | .vobj _ => true
  | _ => false

/-- JavaScript `value instanceof Error`; `HttpException` extends `Error`. -/
def isErrorInstance : JsVal → Bool
  | .verr _ _ _ => true
  | .vhttp _ _ _ _ => true
  | _ => false

/-- Lodash `isString`. -/
def isStringV : JsVal → Bool
  | .vstr _ => true
  | _ => false

/-- Embeds `isHttpException` of base-wallet-client.ts: an `instanceof
HttpException` check. -/
def isHttpException : JsVal → Bool
  | .vhttp _ _ _ _ => true
  | _ => false

/-- HTTP status of an `HttpException` (the `getStatus()` accessor). -/
def getStatusH : JsVal → Int
  | .vhttp st _ _ _ => st
  | _ => 0

/-- Response body of an `HttpException` (the `getResponse()` accessor). -/
def getResponseH : JsVal → JsVal
  | .vhttp _ r _ _ => r
  | _ => .vnull

mutual

/-- Nesting depth of a value; any structural-descent fuel of at least this
depth computes the exact result of the embedded recursive functions. -/
def jsDepth : JsVal → Nat
  | .vnull => 1
  | .vbool _ => 1
  | .vnum _ => 1
  | .vstr _ => 1
  | .vobj fs => 1 + jsFieldsDepth fs
  | .verr _ _ fs => 1 + jsFieldsDepth fs
  | .vhttp _ r _ _ => 1 + jsDepth r

/-- Largest depth among a field list's values. -/
def jsFieldsDepth : JsFields → Nat
  | .fnil => 0
  | .fcons _ v rest => Nat.max (jsDepth v) (jsFieldsDepth rest)

end

/-- ASCII lowering, the fragment of `String.prototype.toLowerCase` the
classifier's fixed phrases exercise. -/
def strLower (s : String) : String := ⟨s.data.map Char.toLower⟩

/-- Char-list version of the startsWith test: does the second list start with
the first? -/
def leadsWith : List Char → List Char → Bool
  | [], _ => true
  | _ :: _, [] => false
  | p :: ps, c :: cs => p = c && leadsWith ps cs

/-- Does `pat` occur as a contiguous run inside `hay`? -/
def hasRun (hay pat : List Char) : Bool :=
  match hay with
  | [] => leadsWith pat []
  | _ :: rest => leadsWith pat hay || hasRun rest pat

/-- JavaScript `haystack.includes(pat)`. -/
def jsIncludes (hay pat : String) : Bool := hasRun hay.data pat.data

/-- JavaScript `String(v)` coercion for the modelled values. -/
def jsStringOf : JsVal → String
  | .vnull => "null"
  | .vbool true => "true"
  | .vbool false => "false"
  | .vnum n => toString n
  | .vstr s => s
  | .vobj _ => "[object Object]"
  | .verr m _ _ => if m = "" then "Error" else "Error: " ++ m
  | .vhttp _ _ m _ => if m = "" then "HttpException" else "HttpException: " ++ m

/-- JSON string escaping for quote and backslash (the only escapes the
embedded fixed phrases can meet). -/
def jsonQuote (s : String) : String :=
  "\"" ++ ⟨s.data.flatMap (fun c => if c = '"' ∨ c = '\\' then ['\\', c] else [c])⟩ ++ "\""

mutual

/-- JavaScript `JSON.stringify` on the modelled values.  For an `Error`
instance only the extra assigned fields are enumerable; for an
`HttpException` the own enumerable fields are `response`, `status`, `message`
and `name`, in assignment order.  On the finite values modelled here
stringification always succeeds (the source's try/catch guards only against
circular references). -/
def jsonStringifyV : JsVal → String
  | .vnull => "null"
  | .vbool true => "true"
  | .vbool false => "false"
  | .vnum n => toString n
  | .vstr s => jsonQuote s
  | .vobj fs => "\x7b" ++ jsonFieldsV fs ++ "\x7d"
  | .verr _ _ fs => "\x7b" ++ jsonFieldsV fs ++ "\x7d"
  | .vhttp st r m _ =>
      "\x7b" ++ jsonQuote "response" ++ ":" ++ jsonStringifyV r ++ "," ++
        jsonQuote "status" ++ ":" ++ toString st ++ "," ++
        jsonQuote "message" ++ ":" ++ jsonQuote m ++ "," ++
        jsonQuote "name" ++ ":" ++ jsonQuote "HttpException" ++ "\x7d"

/-- Serializes an object's field list, comma separated. -/
def jsonFieldsV : JsFields → String
  | .fnil => ""
  | .fcons k v rest =>
      jsonQuote k ++ ":" ++ jsonStringifyV v ++
        (match rest with
         | .fnil => ""
         | .fcons _ _ _ => "," ++ jsonFieldsV rest)

end

/-! ## The error classifier

Embeds `classifyDynamicSDKError` and its helpers from
src/apps/api/src/wallet/clients/base-wallet-client.ts (lines 245-431).
Each helper mirrors one of the local bindings computed at the top of the
TypeScript function.
-/

/-- Error kinds of `DynamicSDKErrorClassification` (base-wallet-client.ts). -/
inductive DynamicSDKErrorType where
  | multipleWallets
  | authentication
  | rateLimit
  | network
  | notFound
  | forbidden
  | unknown
deriving DecidableEq, Repr

/-- Classification result: kind plus suggested HTTP status
(base-wallet-client.ts lines 247-257). -/
structure DynamicSDKErrorClassification where
  type : DynamicSDKErrorType
  statusCode : Nat
deriving DecidableEq, Repr

/-- JavaScript `a || b` on possibly-undefined values: keep `a` when truthy. -/
def jsOrVal (a b : Option JsVal) : Option JsVal :=
  match a with
  | some v => if truthy v then some v else b
  | none => b

/-- Embeds the `errorStatus` binding of `classifyDynamicSDKError`
(base-wallet-client.ts lines 278-281): the JS truthiness chain
`error?.status || error?.error?.status || (error?.error && isPlainObject(error.error) && error.error.status)`. -/
def errorStatusOf (error : JsVal) : Option JsVal :=
  jsOrVal (getField error "status")
    (jsOrVal
      (match getField error "error" with
       | some e => getField e "status"
       | none => none)
      (match getField error "error" with
       | some e => if truthy e && isPlainObjectV e then getField e "status" else none
       | none => none))

/-- Does the extracted `errorStatus` strictly equal the given number? -/
def statusIs (error : JsVal) (n : Int) : Bool :=
  match errorStatusOf error with
  | some (.vnum m) => m == n
  | _ => false

/-- Embeds the `nestedErrorMessage` binding of `classifyDynamicSDKError`
(base-wallet-client.ts lines 285-302). -/
def nestedErrorMessageOf (error : JsVal) : String :=
  match getField error "error" with
  | none => ""
  | some ne =>
    if truthy ne then
      if isStringV ne then strLower (jsStringOf ne)
      else if isPlainObjectV ne then
        match getField ne "error" with
        | some nee =>
          if truthy nee && isStringV nee then strLower (jsStringOf nee)
          else match getField ne "message" with
               | some (.vstr m) => strLower m
               | _ => strLower (jsStringOf ne)
        | none =>
          match getField ne "message" with
          | some (.vstr m) => strLower m
          | _ => strLower (jsStringOf ne)
      else strLower (jsStringOf ne)
    else ""

/-- Embeds the `causeMessage` binding of `classifyDynamicSDKError`
(base-wallet-client.ts lines 306-316). -/
def causeMessageOf (error : JsVal) : String :=
  match getField error "cause" with
  | none => ""
  | some c =>
    if truthy c then
      match getField c "error" with
      | some (.vstr s) => strLower s
      | _ =>
        match getField c "message" with
        | some (.vstr m) => strLower m
        | _ => ""
    else ""

/-- Embeds the `nestedErrorObjMessage` binding of `classifyDynamicSDKError`
(base-wallet-client.ts lines 320-327). -/
def nestedErrorObjMessageOf (error : JsVal) : String :=
  match getField error "error" with
  | none => ""
  | some ne =>
    if truthy ne && isPlainObjectV ne then
      match getField ne "error" with
      | some (.vstr s) => strLower s
      | _ =>
        match getField ne "message" with
        | some (.vstr m) => strLower m
        | _ => ""
    else ""

/-- Embeds the `errorString` binding of `classifyDynamicSDKError`
(base-wallet-client.ts lines 330-335): `JSON.stringify(error).toLowerCase()`. -/
def errorStringOf (error : JsVal) : String :=
  strLower (jsonStringifyV error)

/-- Embeds the `lowerMessage` binding (line 272):
`isEmpty(errorMessage) ? '' : errorMessage.toLowerCase()`. -/
def lowerMessageOf (errorMessage : String) : String :=
  if errorMessage = "" then "" else strLower errorMessage

/-- Embeds the `stackLower` binding (lines 273-274). -/
def stackLowerOf (error : JsVal) : String :=
  match error with
  | .verr _ s _ => strLower s
  | .vhttp _ _ _ s => strLower s
  | _ => ""

/-- Embeds the `isMultipleWalletsError` condition of `classifyDynamicSDKError`
(base-wallet-client.ts lines 339-367), disjuncts in source order: stack
phrases first, then the 400 status, then the message, nested-error, cause,
nested-object and JSON-string phrase checks, then the wallet-creation
combination. -/
def mwCondition (error : JsVal) (errorMessage : String) : Bool :=
  let lowerMessage := lowerMessageOf errorMessage
  let stackLower := stackLowerOf error
  let nestedErrorMessage := nestedErrorMessageOf error
  let causeMessage := causeMessageOf error
  let nestedErrorObjMessage := nestedErrorObjMessageOf error
  let errorString := errorStringOf error
  jsIncludes stackLower "multiple wallets per chain" ||
  jsIncludes stackLower "wallet already exists" ||
  jsIncludes stackLower "you cannot create multiple wallets" ||
  statusIs error 400 ||
  jsIncludes lowerMessage "multiple wallets per chain" ||
  jsIncludes lowerMessage "wallet already exists" ||
  jsIncludes lowerMessage "you cannot create multiple wallets" ||
  jsIncludes nestedErrorMessage "multiple wallets per chain" ||
  jsIncludes nestedErrorMessage "wallet already exists" ||
  jsIncludes nestedErrorMessage "you cannot create multiple wallets" ||
  jsIncludes causeMessage "multiple wallets per chain" ||
  jsIncludes causeMessage "wallet already exists" ||
  jsIncludes causeMessage "you cannot create multiple wallets" ||
  jsIncludes nestedErrorObjMessage "multiple wallets per chain" ||
  jsIncludes nestedErrorObjMessage "wallet already exists" ||
  jsIncludes nestedErrorObjMessage "you cannot create multiple wallets" ||
  jsIncludes errorString "multiple wallets per chain" ||
  jsIncludes errorString "wallet already exists" ||
  jsIncludes errorString "you cannot create multiple wallets" ||
  (jsIncludes lowerMessage "error creating" && jsIncludes lowerMessage "wallet" &&
    (jsIncludes lowerMessage "account" || jsIncludes lowerMessage "evm" ||
     jsIncludes lowerMessage "svm" || jsIncludes lowerMessage "solana"))

/-- Embeds the authentication condition (base-wallet-client.ts lines 374-381). -/
def authCondition (errorMessage : String) : Bool :=
  let lowerMessage := lowerMessageOf errorMessage
  jsIncludes lowerMessage "authentication" ||
  jsIncludes lowerMessage "token" ||
  jsIncludes lowerMessage "unauthorized" ||
  jsIncludes lowerMessage "auth" ||
  jsIncludes lowerMessage "credential" ||
  jsIncludes lowerMessage "permission denied"

/-- Embeds the rate-limit condition (base-wallet-client.ts lines 386-392):
status 429 first, then message phrases. -/
def rateLimitCondition (error : JsVal) (errorMessage : String) : Bool :=
  let lowerMessage := lowerMessageOf errorMessage
  statusIs error 429 ||
  jsIncludes lowerMessage "rate limit" ||
  jsIncludes lowerMessage "throttle" ||
  jsIncludes lowerMessage "too many" ||
  jsIncludes lowerMessage "quota" ||
  jsIncludes lowerMessage "limit exceeded"

/-- Embeds the network condition (base-wallet-client.ts lines 398-406). -/
def networkCondition (errorMessage : String) : Bool :=
  let lowerMessage := lowerMessageOf errorMessage
  jsIncludes lowerMessage "network" ||
  jsIncludes lowerMessage "timeout" ||
  jsIncludes lowerMessage "connection" ||
  jsIncludes lowerMessage "econnrefused" ||
  jsIncludes lowerMessage "enotfound" ||
  jsIncludes lowerMessage "econnreset" ||
  jsIncludes lowerMessage "socket" ||
  jsIncludes lowerMessage "dns"

/-- Embeds the not-found condition (base-wallet-client.ts lines 412-417). -/
def notFoundCondition (errorMessage : String) : Bool :=
  let lowerMessage := lowerMessageOf errorMessage
  jsIncludes lowerMessage "not found" ||
  jsIncludes lowerMessage "does not exist" ||
  jsIncludes lowerMessage "missing" ||
  jsIncludes lowerMessage "not available"

/-- Embeds the forbidden condition (base-wallet-client.ts lines 422-425). -/
def forbiddenCondition (errorMessage : String) : Bool :=
  let lowerMessage := lowerMessageOf errorMessage
  jsIncludes lowerMessage "forbidden" ||
  jsIncludes lowerMessage "access denied" ||
  jsIncludes lowerMessage "not allowed"

/-- Embeds `classifyDynamicSDKError` (base-wallet-client.ts lines 267-431):
the if-chain over the conditions, in source order, with the source's status
codes (`not_found` maps to 400 and `forbidden` to 401 in the source). -/
def classifyDynamicSDKError (error : JsVal) (errorMessage : String) :
    DynamicSDKErrorClassification :=
  if mwCondition error errorMessage then ⟨.multipleWallets, 400⟩
  else if authCondition errorMessage then ⟨.authentication, 401⟩
  else if rateLimitCondition error errorMessage then ⟨.rateLimit, 429⟩
  else if networkCondition errorMessage then ⟨.network, 502⟩
  else if notFoundCondition errorMessage then ⟨.notFound, 400⟩
  else if forbiddenCondition errorMessage then ⟨.forbidden, 401⟩
  else ⟨.unknown, 500⟩

/-- The classifier's fixed priority order (all kinds except the fallback). -/
def classifierKindOrder : List DynamicSDKErrorType :=
  [.multipleWallets, .authentication, .rateLimit, .network, .notFound, .forbidden]

/-- The match condition of each non-fallback kind, as written in the source. -/
def kindCondition (k : DynamicSDKErrorType) (error : JsVal) (errorMessage : String) : Bool :=
  match k with
  | .multipleWallets => mwCondition error errorMessage
  | .authentication => authCondition errorMessage
  | .rateLimit => rateLimitCondition error errorMessage
  | .network => networkCondition errorMessage
  | .notFound => notFoundCondition errorMessage
  | .forbidden => forbiddenCondition errorMessage
  | .unknown => true

theorem classify_eq_first_match (e : JsVal) (m : String) :
    (classifyDynamicSDKError e m).type =
      (classifierKindOrder.find? (fun k => kindCondition k e m)).getD .unknown := by
  unfold classifyDynamicSDKError classifierKindOrder
  cases hmw : mwCondition e m <;>
    cases hauth : authCondition m <;>
      cases hrl : rateLimitCondition e m <;>
        cases hnet : networkCondition m <;>
          cases hnf : notFoundCondition m <;>
            cases hfb : forbiddenCondition m <;>
              simp [List.find?, kindCondition, hmw, hauth, hrl, hnet, hnf, hfb]

/-- Any error whose extracted status chain yields exactly 400 is classified
as the multiple-wallets (already-provisioned) kind, whatever the message. -/
theorem classify_of_status400 (e : JsVal) (m : String)
    (h : statusIs e 400 = true) :
    classifyDynamicSDKError e m = ⟨.multipleWallets, 400⟩ := by
  have hmw : mwCondition e m = true := by
    unfold mwCondition
    simp [h]
  unfold classifyDynamicSDKError
  simp [hmw]

/-- C3 — the classifier returns exactly one kind, the first in the fixed
priority order already_provisioned (multiple_wallets), authentication,
rate_limited, network, not_found, forbidden whose condition matches, with
unknown as fallback; an error text matching both an already-provisioned
phrase and a rate-limit phrase classifies as already_provisioned, and one
matching both authentication and network phrases classifies as
authentication. -/
theorem c3_classifier_priority_order :
    (∀ (e : JsVal) (m : String),
      (classifyDynamicSDKError e m).type =
        (classifierKindOrder.find? (fun k => kindCondition k e m)).getD .unknown)
    ∧ (classifyDynamicSDKError .vnull
        "Wallet already exists; rate limit exceeded").type = .multipleWallets
    ∧ (classifyDynamicSDKError .vnull
        "authentication failed: network timeout").type = .authentication := by
  refine ⟨classify_eq_first_match, ?_, ?_⟩ <;> decide

/-- C10 counterexample — an error with top-level status 500 and nested
error.status 400: the nested status field equals 400, yet the classifier does
not return the already-provisioned kind (the truthy top-level 500 shadows the
nested 400 in the JS or-chain), refuting the claim as stated. -/
theorem c10_nested_status400_not_multiple_wallets :
    getField (JsVal.obj [("status", .vnum 500), ("error", JsVal.obj [("status", .vnum 400)])])
        "status" = some (.vnum 500)
    ∧ (match getField (JsVal.obj [("status", .vnum 500),
          ("error", JsVal.obj [("status", .vnum 400)])]) "error" with
       | some e => getField e "status"
       | none => none) = some (.vnum 400)
    ∧ (classifyDynamicSDKError
        (JsVal.obj [("status", .vnum 500), ("error", JsVal.obj [("status", .vnum 400)])])
        "").type = .unknown := by
  refine ⟨rfl, rfl, by decide⟩

/-- C10 amended — for every error value whose effective status — the first
truthy value among the top-level status field and the nested error.status
field — equals 400, the classifier returns the already-provisioned
(multiple_wallets) kind regardless of the message content. -/
theorem c10_status400_multiple_wallets (e : JsVal) (m : String)
    (h : errorStatusOf e = some (.vnum 400)) :
    (classifyDynamicSDKError e m).type = .multipleWallets := by
  have hs : statusIs e 400 = true := by
    unfold statusIs
    rw [h]
    rfl
  rw [classify_of_status400 e m hs]

/-- Witness for the amended C10 theorem: a plain 400 error whose message is an
unrelated validation rejection still classifies as already-provisioned. -/
theorem c10_status400_multiple_wallets_witness :
    (classifyDynamicSDKError
      (JsVal.obj [("status", .vnum 400), ("message", .vstr "invalid request body")])
      "invalid request body").type = .multipleWallets :=
  c10_status400_multiple_wallets _ _ rfl

/-! ## Message extraction

Embeds `extractDynamicSDKErrorMessage` from
src/apps/api/src/wallet/clients/base-wallet-client.ts (lines 45-188) and the
shared `getErrorMessage` helper it falls back to.
-/

/-- JavaScript `typeof v === 'object'` for truthy values of the model. -/
def typeofObjectV : JsVal → Bool
  | .vobj _ => true
  | .verr _ _ _ => true
  | .vhttp _ _ _ _ => true
  | _ => false

/-- Modelled from the spec: the `getErrorMessage` helper of `@vencura/lib`
(its implementation file is not under src/; its documentation says it
"extracts error message from various error types", returning the message of an
`Error` instance).  Error instances yield their message, strings yield
themselves, plain objects with a string message field yield it, anything else
yields null. -/
def getErrorMessage : JsVal → Option String
  | .vstr s => some s
  | .verr m _ _ => some m
  | .vhttp _ _ m _ => some m
  | .vobj fs =>
      match lookupField fs "message" with
      | some (.vstr m) => some m
      | _ => none
  | _ => none

/-- Embeds the stack phrase scan of `extractDynamicSDKErrorMessage`
(base-wallet-client.ts lines 51-79): case-insensitive checks for the three
known already-provisioned phrases, then the case-sensitive rechecks of the
source, returning the canonical message. -/
def stackPhraseMsg (stack : String) : Option String :=
  let stackLower := strLower stack
  if jsIncludes stackLower "multiple wallets per chain not allowed" then
    some "Multiple wallets per chain not allowed"
  else if jsIncludes stackLower "wallet already exists" then
    some "Wallet already exists"
  else if jsIncludes stackLower "you cannot create multiple wallets" then
    some "You cannot create multiple wallets"
  else if jsIncludes stack "Multiple wallets per chain not allowed" then
    some "Multiple wallets per chain not allowed"
  else if jsIncludes stack "Wallet already exists" then
    some "Wallet already exists"
  else if jsIncludes stack "You cannot create multiple wallets" then
    some "You cannot create multiple wallets"
  else none

/-- Fuel-bounded embedding of `extractDynamicSDKErrorMessage`
(base-wallet-client.ts lines 45-188).  The fuel only bounds the recursive
descent through nested error/cause objects; the TypeScript recursion always
terminates on the finite values modelled here, and any fuel of at least the
value's nesting depth (in particular `jsDepth`, used by the wrapper) computes
the exact result, because the recursive calls only descend into field values
of a plain object. -/
def extractDynamicSDKErrorMessageGo : Nat → JsVal → Option String
  | 0, _ => none
  | fuel + 1, error =>
    if truthy error = false then none
    else
      -- FIRST: stack of Error instances, checked before everything else
      let first : Option String :=
        if isErrorInstance error then
          match getField error "stack" with
          | some (.vstr stack) => if stack ≠ "" then stackPhraseMsg stack else none
          | _ => none
        else none
      match first with
      | some m => some m
      | none =>
        -- SECOND: the error.error property of any object
        let second : Option String :=
          if typeofObjectV error then
            match getField error "error" with
            | some ev =>
              if truthy ev then
                if isStringV ev then some (jsStringOf ev)
                else if isPlainObjectV ev then
                  match getField ev "error" with
                  | some nee =>
                    if truthy nee && isStringV nee then some (jsStringOf nee)
                    else
                      match getField ev "message" with
                      | some (.vstr m) => some m
                      | _ => none
                  | none =>
                    match getField ev "message" with
                    | some (.vstr m) => some m
                    | _ => none
                else none
              else none
            | none => none
          else none
        match second with
        | some m => some m
        | none =>
          -- THIRD: nested structures of plain objects
          let third : Option String :=
            if isPlainObjectV error then
              let causeMsg : Option String :=
                match getField error "cause" with
                | some c =>
                  if isPlainObjectV c then
                    match getField c "error" with
                    | some ce =>
                      if truthy ce && isStringV ce then some (jsStringOf ce)
                      else
                        match getField c "message" with
                        | some (.vstr m) => some m
                        | _ => none
                    | none =>
                      match getField c "message" with
                      | some (.vstr m) => some m
                      | _ => none
                  else none
                | none => none
              match causeMsg with
              | some m => some m
              | none =>
                match getField error "message" with
                | some (.vstr message) =>
                  if jsIncludes message "Error creating" || jsIncludes message "Error in" ||
                      jsIncludes message "Failed to" then
                    -- the source rechecks the stack here; a plain object is
                    -- never an Error instance, so that recheck cannot fire
                    let deep : Option String :=
                      match getField error "error" with
                      | some ev =>
                        match extractDynamicSDKErrorMessageGo fuel ev with
                        | some nested =>
                          if nested ≠ "" && nested ≠ message then some nested else none
                        | none => none
                      | none => none
                    match deep with
                    | some m => some m
                    | none =>
                      match getField error "cause" with
                      | some cv =>
                        match extractDynamicSDKErrorMessageGo fuel cv with
                        | some causeM =>
                          if causeM ≠ "" && causeM ≠ message then some causeM
                          else some message
                        | none => some message
                      | none => some message
                  else some message
                | _ => none
            else none
          match third with
          | some m => some m
          | none =>
            -- FOURTH: getErrorMessage fallback, then String(error)
            match getErrorMessage error with
            | some m => if m ≠ "" then some m else some (jsStringOf error)
            | none => some (jsStringOf error)

/-- Embeds `extractDynamicSDKErrorMessage` with enough fuel for the whole
value. -/
def extractDynamicSDKErrorMessage (error : JsVal) : Option String :=
  extractDynamicSDKErrorMessageGo (jsDepth error) error

/-! ## The retry policy

Embeds `RateLimitService` from src/unnamed/part_001.
-/

/-- Configuration of `RateLimitConfigSchema` (part_001 lines 10-15), with the
schema's defaults. -/
structure RateLimitConfig where
  maxRetries : Nat
  baseDelayMs : Nat
  maxDelayMs : Nat
  jitterMaxMs : Nat
deriving DecidableEq, Repr

/-- The schema defaults: 5 retries, 1000 ms base delay, 30000 ms max delay,
1000 ms max jitter (part_001 lines 10-15 and 36-41). -/
def rateLimitDefaults : RateLimitConfig := ⟨5, 1000, 30000, 1000⟩

/-- Embeds `RateLimitService.retryWithBackoff` (src/unnamed/part_001 lines
75-79).  The entire body of the source method is `return await fn()` under the
comment "Retry logic removed - delays are handled at test level to prevent
rate limits": the wrapped operation is invoked exactly once and its outcome,
success or failure of any classification, is returned unchanged.  The
operation is modelled as a function from the attempt index to an outcome so
that the number of attempts is observable; the second component of the result
counts the invocations performed. -/
def retryWithBackoff {α : Type} (fn : Nat → Except JsVal α) : Except JsVal α × Nat :=
  (fn 0, 1)

/-- Embeds the message-phrase part of `RateLimitService.isRateLimitError`
(part_001 lines 89-98). -/
def rateLimitMsgCheck (error : JsVal) : Bool :=
  match getErrorMessage error with
  | none => false
  | some m =>
    if m = "" then false
    else
      let lowerMessage := strLower m
      jsIncludes lowerMessage "rate limit" ||
      jsIncludes lowerMessage "429" ||
      jsIncludes lowerMessage "too many requests" ||
      jsIncludes lowerMessage "quota exceeded"

/-- Embeds `RateLimitService.isRateLimitError` (part_001 lines 81-99):
status 429 via `errorObj.status ?? errorObj.response?.status`, then message
phrases. -/
def isRateLimitError (error : JsVal) : Bool :=
  if typeofObjectV error = false || truthy error = false then false
  else
    let status : Option JsVal :=
      match getField error "status" with
      | some v => some v
      | none =>
        match getField error "response" with
        | some r => getField r "status"
        | none => none
    match status with
    | some (.vnum n) => if n == 429 then true else rateLimitMsgCheck error
    | _ => rateLimitMsgCheck error

/-- JavaScript `parseInt(s, 10)`: optional leading spaces and sign, then a
digit run; no digits means NaN, modelled as `none`. -/
def parseIntJS (s : String) : Option Int :=
  let cs := s.data.dropWhile (· = ' ')
  let core : List Char → Option Nat := fun l =>
    let digits := l.takeWhile Char.isDigit
    if digits.isEmpty then none
    else some (digits.foldl (fun a c => a * 10 + (c.toNat - 48)) 0)
  match cs with
  | '-' :: rest => (core rest).map (fun n => -(n : Int))
  | '+' :: rest => (core rest).map (fun n => (n : Int))
  | _ => (core cs).map (fun n => (n : Int))

/-- Embeds `RateLimitService.extractRetryAfter` (part_001 lines 101-120): the
provider's retry-after hint from `headers ?? response.headers`, parsed from a
string or taken as a number. -/
def extractRetryAfter (error : JsVal) : Option Int :=
  if typeofObjectV error = false || truthy error = false then none
  else
    let headers : Option JsVal :=
      match getField error "headers" with
      | some h => some h
      | none =>
        match getField error "response" with
        | some r => if isPlainObjectV r then getField r "headers" else none
        | none => none
    match headers with
    | some h =>
      if isPlainObjectV h then
        match getField h "retry-after" with
        | some (.vstr s) => parseIntJS s
        | some (.vnum n) => some n
        | _ => none
      else none
    | none => none

/-- C2 — code-bug evidence: the retry policy performs no retries at all.  Even
for an operation whose failure `isRateLimitError` recognises as rate-limited,
`retryWithBackoff` invokes the operation exactly once and propagates the
failure unchanged, with no delay computation, while the configured attempt
budget defaults to 5; this contradicts the claimed retry-with-backoff
behaviour (which ADR 016 in the repository also documents). -/
theorem c2_rate_limited_not_retried {α : Type} (fn : Nat → Except JsVal α) (e : JsVal)
    (_hrl : isRateLimitError e = true) (hfail : fn 0 = .error e) :
    retryWithBackoff fn = (.error e, 1) ∧ rateLimitDefaults.maxRetries = 5 := by
  constructor
  · unfold retryWithBackoff
    rw [hfail]
  · rfl

/-- Witness for the C2 theorem at a concrete 429 failure. -/
theorem c2_rate_limited_not_retried_witness :
    retryWithBackoff (fun _ => (Except.error (JsVal.obj [("status", .vnum 429)]) :
        Except JsVal Nat)) = (.error (JsVal.obj [("status", .vnum 429)]), 1) ∧
      rateLimitDefaults.maxRetries = 5 :=
  c2_rate_limited_not_retried _ _ (by decide) rfl

/-! ## SHA-256 and the derived wallet identity

Embeds `generateWalletId` (base-wallet-client.ts lines 599-604, and the
identical copy at lines 1118-1123 of the vencura-api wallet service).  The
source derives the identity with Node's `createHash('sha256')`, a platform
primitive; it is embedded here as FIPS 180-4 SHA-256 over the UTF-8 bytes of
the input, on `Nat` with explicit reduction modulo 2^32.
-/

/-- The 32-bit modulus. -/
def M32 : Nat := 4294967296

/-- Addition modulo 2^32. -/
def add32 (a b : Nat) : Nat := (a + b) % M32

/-- Right rotation of a 32-bit word. -/
def rotr32 (x n : Nat) : Nat := ((x >>> n) ||| (x <<< (32 - n))) % M32

/-- Bitwise complement within 32 bits. -/
def not32 (x : Nat) : Nat := (M32 - 1) ^^^ x

/-- SHA-256 Ch function. -/
def chFn (x y z : Nat) : Nat := (x &&& y) ^^^ (not32 x &&& z)

/-- SHA-256 Maj function. -/
def majFn (x y z : Nat) : Nat := ((x &&& y) ^^^ (x &&& z)) ^^^ (y &&& z)

/-- SHA-256 big sigma 0. -/
def bsig0 (x : Nat) : Nat := (rotr32 x 2 ^^^ rotr32 x 13) ^^^ rotr32 x 22

/-- SHA-256 big sigma 1. -/
def bsig1 (x : Nat) : Nat := (rotr32 x 6 ^^^ rotr32 x 11) ^^^ rotr32 x 25

/-- SHA-256 small sigma 0. -/
def ssig0 (x : Nat) : Nat := (rotr32 x 7 ^^^ rotr32 x 18) ^^^ (x >>> 3)

/-- SHA-256 small sigma 1. -/
def ssig1 (x : Nat) : Nat := (rotr32 x 17 ^^^ rotr32 x 19) ^^^ (x >>> 10)

/-- The 64 SHA-256 round constants. -/
def sha256K : List Nat :=
  [1116352408, 1899447441, 3049323471, 3921009573, 961987163,
   1508970993, 2453635748, 2870763221, 3624381080, 310598401,
   607225278, 1426881987, 1925078388, 2162078206, 2614888103,
   3248222580, 3835390401, 4022224774, 264347078, 604807628,
   770255983, 1249150122, 1555081692, 1996064986, 2554220882,
   2821834349, 2952996808, 3210313671, 3336571891, 3584528711,
   113926993, 338241895, 666307205, 773529912, 1294757372,
   1396182291, 1695183700, 1986661051, 2177026350, 2456956037,
   2730485921, 2820302411, 3259730800, 3345764771, 3516065817,
   3600352804, 4094571909, 275423344, 430227734, 506948616,
   659060556, 883997877, 958139571, 1322822218, 1537002063,
   1747873779, 1955562222, 2024104815, 2227730452, 2361852424,
   2428436474, 2756734187, 3204031479, 3329325298]

/-- The SHA-256 initial hash state. -/
def sha256H0 : List Nat :=
  [1779033703, 3144134277, 1013904242, 2773480762,
   1359893119, 2600822924, 528734635, 1541459225]

/-- UTF-8 encoding of one code point (what Node's `hash.update(string)`
feeds the compression function). -/
def utf8Bytes (c : Char) : List Nat :=
  let n := c.toNat
  if n < 128 then [n]
  else if n < 2048 then [192 + n / 64, 128 + n % 64]
  else if n < 65536 then [224 + n / 4096, 128 + (n / 64) % 64, 128 + n % 64]
  else [240 + n / 262144, 128 + (n / 4096) % 64, 128 + (n / 64) % 64, 128 + n % 64]

/-- UTF-8 bytes of a string. -/
def strBytes (s : String) : List Nat := s.data.flatMap utf8Bytes

/-- Big-endian 8-byte encoding of the message bit length. -/
def be64 (n : Nat) : List Nat :=
  [(n >>> 56) &&& 255, (n >>> 48) &&& 255, (n >>> 40) &&& 255, (n >>> 32) &&& 255,
   (n >>> 24) &&& 255, (n >>> 16) &&& 255, (n >>> 8) &&& 255, n &&& 255]

/-- SHA-256 padding: 0x80, zeros to 56 mod 64, then the bit length. -/
def sha256Pad (msg : List Nat) : List Nat :=
  let len := msg.length
  let padZeros := (119 - len % 64) % 64
  msg ++ 128 :: (List.replicate padZeros 0 ++ be64 (8 * len))

/-- Big-endian 32-bit words from a byte list whose length is a multiple of 4. -/
def beWords : List Nat → List Nat
  | b0 :: b1 :: b2 :: b3 :: rest => (((b0 <<< 24) ||| (b1 <<< 16)) ||| ((b2 <<< 8) ||| b3)) :: beWords rest
  | _ => []

/-- The 64-entry message schedule of one block. -/
def sha256Schedule (block : List Nat) : List Nat :=
  (List.range 64).foldl
    (fun w i =>
      if i < 16 then w ++ [block.getD i 0]
      else w ++ [(ssig1 (w.getD (i - 2) 0) + w.getD (i - 7) 0 +
                  ssig0 (w.getD (i - 15) 0) + w.getD (i - 16) 0) % M32])
    []

/-- One SHA-256 round on the eight working variables, consuming K[i]+W[i]. -/
def sha256Round (st : Nat × Nat × Nat × Nat × Nat × Nat × Nat × Nat) (kw : Nat) :
    Nat × Nat × Nat × Nat × Nat × Nat × Nat × Nat :=
  match st with
  | (a, b, c, d, e, f, g, h) =>
    let t1 := (h + bsig1 e + chFn e f g + kw) % M32
    let t2 := (bsig0 a + majFn a b c) % M32
    ((t1 + t2) % M32, a, b, c, (d + t1) % M32, e, f, g)

/-- Adds the final working variables back into the previous hash state. -/
def sha256Finish (h : List Nat) :
    Nat × Nat × Nat × Nat × Nat × Nat × Nat × Nat → List Nat
  | (a, b, c, d, e, f, g, hh) =>
    [add32 (h.getD 0 0) a, add32 (h.getD 1 0) b, add32 (h.getD 2 0) c,
     add32 (h.getD 3 0) d, add32 (h.getD 4 0) e, add32 (h.getD 5 0) f,
     add32 (h.getD 6 0) g, add32 (h.getD 7 0) hh]

/-- Compression of one 16-word block into the running hash state. -/
def sha256Compress (h : List Nat) (block : List Nat) : List Nat :=
  let w := sha256Schedule block
  let kw := List.zipWith (fun k wi => (k + wi) % M32) sha256K w
  sha256Finish h (kw.foldl sha256Round
    (h.getD 0 0, h.getD 1 0, h.getD 2 0, h.getD 3 0,
     h.getD 4 0, h.getD 5 0, h.getD 6 0, h.getD 7 0))

/-- Iterates the compression over the given number of 16-word blocks. -/
def sha256Blocks : Nat → List Nat → List Nat → List Nat
  | 0, h, _ => h
  | n + 1, h, words => sha256Blocks n (sha256Compress h (words.take 16)) (words.drop 16)

/-- SHA-256 digest of a byte list, as eight 32-bit words. -/
def sha256Words (msg : List Nat) : List Nat :=
  let words := beWords (sha256Pad msg)
  sha256Blocks (words.length / 16) sha256H0 words

/-- Lowercase hex digit. -/
def hexChar (n : Nat) : Char := "0123456789abcdef".data.getD n 'x'

/-- Eight lowercase hex digits of a 32-bit word, most significant first. -/
def wordHexChars (w : Nat) : List Char :=
  [hexChar ((w >>> 28) &&& 15), hexChar ((w >>> 24) &&& 15), hexChar ((w >>> 20) &&& 15),
   hexChar ((w >>> 16) &&& 15), hexChar ((w >>> 12) &&& 15), hexChar ((w >>> 8) &&& 15),
   hexChar ((w >>> 4) &&& 15), hexChar (w &&& 15)]

/-- Lowercase hex SHA-256 digest of a string, as `createHash('sha256')
.update(input).digest('hex')` produces it. -/
def sha256Hex (s : String) : String :=
  ⟨((sha256Words (strBytes s)).map wordHexChars).flatten⟩

/-- FIPS 180-4 validation: the digest of "abc". -/
theorem sha256Hex_abc :
    sha256Hex "abc" = "ba7816bf8f01cfea414140de5dae2223b00361a396177a9cb410ff61f20015ad" := by
  decide

/-- FIPS 180-4 validation: the digest of the empty string. -/
theorem sha256Hex_empty :
    sha256Hex "" = "e3b0c44298fc1c149afbf4c8996fb92427ae41e4649b934ca495991b7852b855" := by
  decide

/-- Validation of the two-block path: the digest of the 56-byte FIPS message. -/
theorem sha256Hex_two_blocks :
    sha256Hex "abcdbcdecdefdefgefghfghighijhijkijkljklmklmnlmnomnopnopq" =
      "248d6a61d20638b8e5c026930c3e6039a33ce45964ff2167f6ecedd419db06c1" := by
  decide

/-- JavaScript `s.slice(a, b)` for `a ≤ b` within the string. -/
def jsSlice (s : String) (a b : Nat) : String := ⟨(s.data.drop a).take (b - a)⟩

/-- Embeds `generateWalletId` (base-wallet-client.ts lines 599-604; an
identical copy is at lines 1118-1123): the hex SHA-256 digest of
`address + ":" + network`, regrouped by the template
`slice(0,8) - slice(8,12) - 4 slice(13,16) - slice(16,20) - slice(20,32)`. -/
def generateWalletId (address network : String) : String :=
  let input := address ++ ":" ++ network
  let hash := sha256Hex input
  jsSlice hash 0 8 ++ "-" ++ jsSlice hash 8 12 ++ "-4" ++ jsSlice hash 13 16 ++ "-" ++
    jsSlice hash 16 20 ++ "-" ++ jsSlice hash 20 32

/-- Follows the spec's words (§6): the lowercase hex digest "reformatted into
a UUID-like grouped string (8-4-4-4-12 hex digits, with the version nibble
fixed)": five dash-separated groups of 8, 4, 4, 4 and 12 digest digits taken
in order, where the version nibble — the first digit of the third group, the
13th digit overall — is the fixed constant '4' in place of the corresponding
digest digit. -/
def specDerivedId (digest : List Char) : String :=
  ⟨digest.take 8 ++ '-' :: ((digest.drop 8).take 4 ++ '-' :: '4' ::
    ((digest.drop 13).take 3 ++ '-' :: ((digest.drop 16).take 4 ++ '-' ::
      (digest.drop 20).take 12)))⟩

/-- The digest digits that survive into the derived identity: positions 0-11
and 13-31 (position 12 is replaced by the version constant). -/
def usedDigits (h : String) : List Char := h.data.take 12 ++ (h.data.drop 13).take 19

theorem sha256Finish_length (h : List Nat)
    (st : Nat × Nat × Nat × Nat × Nat × Nat × Nat × Nat) :
    (sha256Finish h st).length = 8 := by
  obtain ⟨a, b, c, d, e, f, g, hh⟩ := st
  rfl

theorem sha256Compress_length (h b : List Nat) : (sha256Compress h b).length = 8 := by
  unfold sha256Compress
  exact sha256Finish_length _ _

theorem sha256Blocks_length (n : Nat) :
    ∀ (h ws : List Nat), h.length = 8 → (sha256Blocks n h ws).length = 8 := by
  induction n with
  | zero => intro h ws hh; exact hh
  | succ n ih =>
    intro h ws _
    exact ih _ _ (sha256Compress_length _ _)

theorem sha256Words_length (msg : List Nat) : (sha256Words msg).length = 8 :=
  sha256Blocks_length _ _ _ rfl

theorem sha256Hex_data_length (s : String) : (sha256Hex s).data.length = 64 := by
  show (((sha256Words (strBytes s)).map wordHexChars).flatten).length = 64
  rw [List.length_flatten, List.map_map]
  have hconst : (List.length ∘ wordHexChars) = fun _ => 8 := funext fun w => rfl
  rw [hconst, List.map_const', List.sum_replicate, sha256Words_length]
  rfl

theorem generateWalletId_eq_spec (a n : String) :
    generateWalletId a n = specDerivedId (sha256Hex (a ++ ":" ++ n)).data := by
  apply String.ext
  simp [generateWalletId, specDerivedId, jsSlice, String.data_append]

theorem dashPeel {as bs xs ys : List Char} (h : as ++ '-' :: xs = bs ++ '-' :: ys)
    (hlen : as.length = bs.length) : as = bs ∧ xs = ys := by
  obtain ⟨h1, h2⟩ := List.append_inj h hlen
  exact ⟨h1, by injection h2⟩

theorem generateWalletId_collision (a1 n1 a2 n2 : String)
    (h : generateWalletId a1 n1 = generateWalletId a2 n2) :
    usedDigits (sha256Hex (a1 ++ ":" ++ n1)) = usedDigits (sha256Hex (a2 ++ ":" ++ n2)) := by
  have hspec : specDerivedId (sha256Hex (a1 ++ ":" ++ n1)).data =
      specDerivedId (sha256Hex (a2 ++ ":" ++ n2)).data :=
    (generateWalletId_eq_spec a1 n1).symm.trans (h.trans (generateWalletId_eq_spec a2 n2))
  set d1 := (sha256Hex (a1 ++ ":" ++ n1)).data with hd1
  set d2 := (sha256Hex (a2 ++ ":" ++ n2)).data with hd2
  have hl1 : d1.length = 64 := sha256Hex_data_length _
  have hl2 : d2.length = 64 := sha256Hex_data_length _
  unfold specDerivedId at hspec
  replace hspec := congrArg String.data hspec
  obtain ⟨e1, hspec⟩ := dashPeel hspec
    (by rw [List.length_take, List.length_take, hl1, hl2])
  obtain ⟨e2, hspec⟩ := dashPeel hspec
    (by rw [List.length_take, List.length_take, List.length_drop, List.length_drop, hl1, hl2])
  injection hspec with _ hspec
  obtain ⟨e3, hspec⟩ := dashPeel hspec
    (by rw [List.length_take, List.length_take, List.length_drop, List.length_drop, hl1, hl2])
  obtain ⟨e4, e5⟩ := dashPeel hspec
    (by rw [List.length_take, List.length_take, List.length_drop, List.length_drop, hl1, hl2])
  unfold usedDigits
  rw [← hd1, ← hd2]
  have split1 : ∀ d : List Char, d.take 12 = d.take 8 ++ (d.drop 8).take 4 := by
    intro d
    exact List.take_add d 8 4
  have split2 : ∀ d : List Char,
      (d.drop 13).take 19 =
        (d.drop 13).take 3 ++ ((d.drop 16).take 4 ++ (d.drop 20).take 12) := by
    intro d
    have h19 : (d.drop 13).take 19 = (d.drop 13).take 3 ++ ((d.drop 13).drop 3).take 16 :=
      List.take_add (d.drop 13) 3 16
    have h16 : ((d.drop 13).drop 3) = d.drop 16 := by
      rw [List.drop_drop]
    have h412 : (d.drop 16).take 16 = (d.drop 16).take 4 ++ ((d.drop 16).drop 4).take 12 :=
      List.take_add (d.drop 16) 4 12
    have h20 : ((d.drop 16).drop 4) = d.drop 20 := by
      rw [List.drop_drop]
    rw [h19, h16, h412, h20]
  rw [split1, split1, split2, split2, e1, e2, e3, e4, e5]

/-- C5 — the derived wallet identity is a pure function of (address,
chain-type): it equals the lowercase hex SHA-256 digest of
`address + ":" + chainType` regrouped as 8-4-4-4-12 hex digits with the
version nibble fixed to the constant '4' (`specDerivedId`, written from the
spec's words); and two inputs can only collide on the identity when their
SHA-256 digests already agree on every digest position the identity uses —
distinct pairs yield distinct outputs up to a truncated-hash collision. -/
theorem c5_derived_identity :
    (∀ a n : String, generateWalletId a n = specDerivedId (sha256Hex (a ++ ":" ++ n)).data)
    ∧ (∀ a1 n1 a2 n2 : String, generateWalletId a1 n1 = generateWalletId a2 n2 →
        usedDigits (sha256Hex (a1 ++ ":" ++ n1)) = usedDigits (sha256Hex (a2 ++ ":" ++ n2))) :=
  ⟨generateWalletId_eq_spec, generateWalletId_collision⟩

/-- Witness for the C5 theorem at concrete inputs. -/
theorem c5_derived_identity_witness :
    generateWalletId "0xabc" "421614" =
      specDerivedId (sha256Hex ("0xabc" ++ ":" ++ "421614")).data ∧
    usedDigits (sha256Hex ("a" ++ ":" ++ "evm")) = usedDigits (sha256Hex ("a" ++ ":" ++ "evm")) :=
  ⟨c5_derived_identity.1 "0xabc" "421614", c5_derived_identity.2 "a" "evm" "a" "evm" rfl⟩

/-! ## Chain registry, key-share store, and the provisioning orchestrator

Embeds `WalletService.createWallet` and its helpers
(base-wallet-client.ts second document, lines 618-988).  The chain registry it
consults lives in common/chains, whose implementation file is not under src/;
it is modelled from the specification, parametrised by the registry table.
-/

/-- Modelled from the spec: one ChainMetadata record of the ChainRegistry
(§2, §3): chain identifier, symbolic network identifier, the custody
provider's canonical network id, and the chain family. -/
structure ChainMetadata where
  chainId : Nat
  networkKey : String
  dynamicNetworkId : String
  chainType : String
deriving DecidableEq, Repr

/-- A chain identifier as the service accepts it: `number | string`. -/
inductive ChainIdent where
  | num (n : Nat)
  | str (s : String)
deriving DecidableEq, Repr

/-- Modelled from the spec: registry lookup accepts a numeric chain id or a
symbolic network string and normalizes to one metadata record (§4.1). -/
def matchesIdent : ChainIdent → ChainMetadata → Bool
  | .num n, m => m.chainId == n
  | .str s, m => m.networkKey == s || m.dynamicNetworkId == s

/-- Modelled from the spec: `getChainMetadata` of common/chains (not under
src/), a pure lookup into the fixed registry table. -/
def getChainMetadata (registry : List ChainMetadata) (c : ChainIdent) : Option ChainMetadata :=
  registry.find? (matchesIdent c)

/-- Modelled from the spec: `isSupportedChain` of common/chains (§4.1). -/
def isSupportedChain (registry : List ChainMetadata) (c : ChainIdent) : Bool :=
  (getChainMetadata registry c).isSome

/-- Modelled from the spec: `getDynamicNetworkId` of common/chains. -/
def getDynamicNetworkId (registry : List ChainMetadata) (c : ChainIdent) : Option String :=
  (getChainMetadata registry c).map (·.dynamicNetworkId)

/-- Modelled from the spec: `getChainType` of common/chains. -/
def getChainType (registry : List ChainMetadata) (c : ChainIdent) : Option String :=
  (getChainMetadata registry c).map (·.chainType)

/-- String interpolation of a chain identifier into error messages. -/
def chainIdStr : ChainIdent → String
  | .num n => toString n
  | .str s => s

/-- A chain identifier as a JS value (for error-details payloads). -/
def chainIdVal : ChainIdent → JsVal
  | .num n => .vnum n
  | .str s => .vstr s

/-- One row of the key_shares table (src/apps/api/src/db/schema.ts): primary
key (address, network a.k.a. chain_type), with the encrypted share blob. -/
structure KeyShareRecord where
  address : String
  network : String
  encryptedKeyShares : String
deriving DecidableEq, Repr

/-- Does a record collide with another on the (address, network) primary key? -/
def sameKey (a b : KeyShareRecord) : Bool :=
  a.address == b.address && a.network == b.network

/-- Embeds the store write of `WalletService.createWallet`
(base-wallet-client.ts lines 744-757): an insert with
`onConflictDoUpdate` on the (address, network) primary key that overwrites
only the encrypted shares — the Postgres upsert semantics. -/
def upsertKeyShare (store : List KeyShareRecord) (r : KeyShareRecord) : List KeyShareRecord :=
  if store.any (sameKey r) then
    store.map (fun q => if sameKey r q then { q with encryptedKeyShares := r.encryptedKeyShares } else q)
  else store ++ [r]

/-- Does every (address, network) key occur at most once in the store?  This
is the invariant the table's primary key enforces. -/
def keysNodupB : List KeyShareRecord → Bool
  | [] => true
  | r :: rest => rest.all (fun q => !(sameKey r q)) && keysNodupB rest

/-- Embeds `WalletService.getChainTypeFromNetwork` (base-wallet-client.ts
lines 657-661): solana for networks starting with "solana-", evm otherwise. -/
def getChainTypeFromNetwork (network : String) : String :=
  if leadsWith "solana-".data network.data then "solana" else "evm"

/-- One row of `WalletService.getUserWallets`. -/
structure WalletView where
  id : String
  address : String
  network : String
  chainType : String
deriving DecidableEq, Repr

/-- Embeds `WalletService.getUserWallets` (base-wallet-client.ts lines
970-988): every key-share record the store holds, with the derived id and the
chain type recomputed from the network string (there is no per-user
partitioning). -/
def getUserWallets (store : List KeyShareRecord) : List WalletView :=
  store.map fun k =>
    ⟨generateWalletId k.address k.network, k.address, k.network,
      getChainTypeFromNetwork k.network⟩

/-- The result shape of the custody provider's `createWalletAccount`
(base-wallet-client.ts lines 504-507). -/
structure CreateWalletResult where
  accountAddress : String
  externalServerKeyShares : List String
deriving DecidableEq, Repr

/-- `JSON.stringify` of the share array, the plaintext handed to the
encryption service (base-wallet-client.ts line 741). -/
def sharesJson (shares : List String) : String :=
  "[" ++ String.intercalate "," (shares.map jsonQuote) ++ "]"

/-- First line of a thrown exception's stack: name, colon, message. -/
def excStack (name msg : String) : String := name ++ ": " ++ msg

/-- A NestJS `BadRequestException` built from a string: status 400 and the
standard three-field response body. -/
def mkBadRequest (msg : String) : JsVal :=
  .vhttp 400
    (JsVal.obj [("message", .vstr msg), ("error", .vstr "Bad Request"),
      ("statusCode", .vnum 400)])
    msg (excStack "BadRequestException" msg)

/-- A NestJS `BadRequestException` built from an object body. -/
def mkBadRequestBody (body : JsVal) (msg : String) : JsVal :=
  .vhttp 400 body msg (excStack "BadRequestException" msg)

/-- A NestJS `InternalServerErrorException` built from a string. -/
def mkInternalServerError (msg : String) : JsVal :=
  .vhttp 500
    (JsVal.obj [("message", .vstr msg), ("error", .vstr "Internal Server Error"),
      ("statusCode", .vnum 500)])
    msg (excStack "InternalServerErrorException" msg)

/-- The response of `WalletService.createWallet` (base-wallet-client.ts lines
682-688). -/
structure WalletResponse where
  id : String
  address : String
  network : String
  chainType : String
  isNew : Bool
deriving DecidableEq, Repr

/-- JS truthiness of a `string | null` variable. -/
def optTruthy : Option String → Bool
  | some s => s ≠ ""
  | none => false

/-- Stack of an Error instance, empty string otherwise (the recurring
`error instanceof Error ? error.stack : ''` idiom). -/
def stackOfV : JsVal → String
  | .verr _ s _ => s
  | .vhttp _ _ _ s => s
  | _ => ""

/-- Embeds `extractExistingWalletAddress` (base-wallet-client.ts lines
194-231): the existing wallet address from `error.response.data.address`,
`error.data.address`, `error.walletAddress` or `error.wallet.address`. -/
def extractExistingWalletAddress (error : JsVal) : Option String :=
  if typeofObjectV error = false || truthy error = false then none
  else
    let fromResponse : Option String :=
      match getField error "response" with
      | some resp =>
        if isPlainObjectV resp then
          match getField resp "data" with
          | some data =>
            if isPlainObjectV data then
              match getField data "address" with
              | some (.vstr a) => some a
              | _ => none
            else none
          | none => none
        else none
      | none => none
    match fromResponse with
    | some a => some a
    | none =>
      let fromData : Option String :=
        match getField error "data" with
        | some data =>
          if isPlainObjectV data then
            match getField data "address" with
            | some (.vstr a) => some a
            | _ => none
          else none
        | none => none
      match fromData with
      | some a => some a
      | none =>
        match getField error "walletAddress" with
        | some (.vstr a) => some a
        | _ =>
          match getField error "wallet" with
          | some w =>
            if isPlainObjectV w then
              match getField w "address" with
              | some (.vstr a) => some a
              | _ => none
            else none
          | none => none

/-- Embeds `WalletService.extractWalletAddressFromError` (base-wallet-client.ts
lines 666-677): a truthy `details.existingWalletAddress` from an
HttpException's response. -/
def extractWalletAddressFromError (error : JsVal) : Option String :=
  if isHttpException error then
    let resp := getResponseH error
    if typeofObjectV resp then
      match getField resp "details" with
      | some d =>
        match getField d "existingWalletAddress" with
        | some (.vstr a) => if a ≠ "" then some a else none
        | _ => none
      | none => none
    else none
  else none

/-- Embeds the second details read of the inner catch (base-wallet-client.ts
lines 815-826): `details.existingWalletAddress` when it is typeof string. -/
def detailsAddrString (error : JsVal) : Option String :=
  if isHttpException error then
    let resp := getResponseH error
    if isPlainObjectV resp then
      match getField resp "details" with
      | some d =>
        if truthy d && isPlainObjectV d then
          match getField d "existingWalletAddress" with
          | some (.vstr a) => some a
          | _ => none
        else none
      | none => none
    else none
  else none

/-- Embeds the `hasExistingWalletInDetails` binding of the inner catch
(base-wallet-client.ts lines 780-790). -/
def hasExistingWalletInDetails (error : JsVal) : Bool :=
  isHttpException error &&
    (let resp := getResponseH error
     isPlainObjectV resp &&
       (match getField resp "details" with
        | some d =>
          truthy d && isPlainObjectV d &&
            (match getField d "existingWalletAddress" with
             | some (.vstr _) => true
             | _ => false)
        | none => false))

/-- JS `a || b || ... || dflt` over nullable strings. -/
def firstTruthyStr : List (Option String) → String → String
  | [], dflt => dflt
  | some s :: rest, dflt => if s ≠ "" then s else firstTruthyStr rest dflt
  | none :: rest, dflt => firstTruthyStr rest dflt

/-- Embeds the `errorMessage` binding of the inner catch (base-wallet-client.ts
lines 771-772): `extractDynamicSDKErrorMessage(error) || getErrorMessage(error)
|| 'Unknown error'`. -/
def extractedErrorMessage (e : JsVal) : String :=
  firstTruthyStr [extractDynamicSDKErrorMessage e, getErrorMessage e] "Unknown error"

/-- Embeds the address-recovery prefix of the inner catch
(base-wallet-client.ts lines 812-826): the first extraction attempt via
`extractWalletAddressFromError`, then the direct details re-read. -/
def innerCatchPayloadAddr (e : JsVal) : Option String :=
  let a0 := extractWalletAddressFromError e
  if optTruthy a0 then a0
  else if isHttpException e then
    match detailsAddrString e with
    | some a => some a
    | none => a0
  else a0

/-- Embeds the inner catch of `WalletService.createWallet`
(base-wallet-client.ts lines 768-882), reached when the custody provider's
`createWallet` call rejects: classify the failure, and on the
multiple-wallets (already-provisioned) path recover the existing address from
the error payload, else from the store — `store` is the store as seen at
recovery time, which in a concurrent run may already contain the record a
racing request just wrote — and only when both fail re-throw. -/
def innerCatchCreate (e : JsVal) (store : List KeyShareRecord)
    (dynamicNetworkId chainType : String) (chainId : ChainIdent) :
    Except JsVal WalletResponse :=
  let errorMessage := extractedErrorMessage e
  let lowerMessage := strLower errorMessage
  let stackLower := strLower (stackOfV e)
  let hasDetails := hasExistingWalletInDetails e
  let classification := classifyDynamicSDKError e errorMessage
  let isMW :=
    hasDetails ||
    (match classification.type with | .multipleWallets => true | _ => false) ||
    jsIncludes lowerMessage "multiple wallets per chain" ||
    jsIncludes lowerMessage "wallet already exists" ||
    jsIncludes lowerMessage "you cannot create multiple wallets" ||
    jsIncludes stackLower "multiple wallets per chain" ||
    jsIncludes stackLower "wallet already exists" ||
    (isHttpException e && (getStatusH e == 400) &&
      (jsIncludes lowerMessage "multiple wallets" ||
       jsIncludes lowerMessage "error creating" ||
       jsIncludes lowerMessage "wallet" ||
       jsIncludes stackLower "multiple wallets"))
  if isMW then
    let fromPayload := innerCatchPayloadAddr e
    let existingAddress :=
      if optTruthy fromPayload then fromPayload
      else
        match (getUserWallets store).find? (fun w => w.network == dynamicNetworkId) with
        | some w => some w.address
        | none =>
          match store.find? (fun r => r.network == dynamicNetworkId) with
          | some k => some k.address
          | none => fromPayload
    if optTruthy existingAddress then
      Except.ok ⟨generateWalletId (existingAddress.getD "") dynamicNetworkId,
        existingAddress.getD "", dynamicNetworkId, chainType, false⟩
    else
      match extractWalletAddressFromError e with
      | some a =>
        Except.error (mkBadRequestBody
          (JsVal.obj [("message", .vstr errorMessage),
            ("details", JsVal.obj [("existingWalletAddress", .vstr a),
              ("chainId", chainIdVal chainId),
              ("dynamicNetworkId", .vstr dynamicNetworkId)])])
          errorMessage)
      | none => Except.error e
  else Except.error e

/-- Embeds the outer catch of `WalletService.createWallet`
(base-wallet-client.ts lines 883-967): HttpExceptions get one more
multiple-wallets recovery attempt against the store, then re-throw unchanged;
everything else is wrapped into an InternalServerErrorException. -/
def outerCatchCreate (registry : List ChainMetadata) (er : JsVal)
    (store : List KeyShareRecord) (chainId : ChainIdent) : Except JsVal WalletResponse :=
  if isHttpException er then
    let errorMessage := firstTruthyStr [extractDynamicSDKErrorMessage er, getErrorMessage er] ""
    let lowerMessage := strLower errorMessage
    let stackLower := strLower (stackOfV er)
    let classification := classifyDynamicSDKError er errorMessage
    let isMW :=
      (match classification.type with | .multipleWallets => true | _ => false) ||
      jsIncludes lowerMessage "multiple wallets per chain" ||
      jsIncludes lowerMessage "wallet already exists" ||
      jsIncludes stackLower "multiple wallets per chain" ||
      ((getStatusH er == 400) &&
        (jsIncludes lowerMessage "multiple wallets" ||
         jsIncludes lowerMessage "error creating" ||
         jsIncludes stackLower "multiple wallets"))
    if isMW then
      match getChainMetadata registry chainId with
      | some _ =>
        match getDynamicNetworkId registry chainId with
        | some networkId =>
          match (getUserWallets store).find? (fun w => w.network == networkId) with
          | some w =>
            match getChainType registry chainId with
            | some ct => Except.ok ⟨w.id, w.address, w.network, ct, false⟩
            | none => Except.error er
          | none =>
            match store.find? (fun r => r.network == networkId) with
            | some k =>
              match getChainType registry chainId with
              | some ct =>
                Except.ok ⟨generateWalletId k.address networkId, k.address, networkId,
                  ct, false⟩
              | none => Except.error er
            | none => Except.error er
        | none => Except.error er
      | none => Except.error er
    else Except.error er
  else
    Except.error (mkInternalServerError
      ("Failed to create wallet: " ++ firstTruthyStr [getErrorMessage er] "Unknown error"))

/-- Embeds the try body of `WalletService.createWallet` (base-wallet-client.ts
lines 689-882), inner catch included.  Parameters stand for the injected
collaborators:
`registry` is the chain registry table (modelled from the spec, common/chains
not being under src/), `encryptFn` the encryption service's encrypt (its
implementation file is also not under src/), `clientAvailable` whether the
factory yields a client, and `providerResult` the outcome of the (at most
one) custody-provider `createWallet` call.  Because execution suspends at the
awaited provider call, concurrent requests may write to the store in between:
`s0` is the store snapshot read by the idempotency pre-check and `s1` the
snapshot seen after the provider call (a purely sequential run has `s0 = s1`).
The result triple is (response or thrown error, resulting store, number of
provider calls). -/
def createWalletTry (registry : List ChainMetadata) (encryptFn : String → String)
    (clientAvailable : Bool) (providerResult : Except JsVal CreateWalletResult)
    (s0 s1 : List KeyShareRecord) (chainId : ChainIdent) :
    Except JsVal WalletResponse × List KeyShareRecord × Nat :=
    if isSupportedChain registry chainId = false then
      (.error (mkBadRequest ("Unsupported chain: " ++ chainIdStr chainId ++
        ". Please provide a valid chain ID or Dynamic network ID.")), s0, 0)
    else
      match getChainMetadata registry chainId with
      | none => (.error (mkBadRequest ("Invalid chain: " ++ chainIdStr chainId)), s0, 0)
      | some _ =>
        match getDynamicNetworkId registry chainId with
        | none =>
          (.error (mkBadRequest ("Could not determine Dynamic network ID for chain: " ++
            chainIdStr chainId)), s0, 0)
        | some dynamicNetworkId =>
          match getChainType registry chainId with
          | none =>
            (.error (mkBadRequest ("Could not determine chain type for chain: " ++
              chainIdStr chainId)), s0, 0)
          | some chainType =>
            match (getUserWallets s0).find? (fun w => w.network == dynamicNetworkId) with
            | some w => (.ok ⟨w.id, w.address, w.network, w.chainType, false⟩, s0, 0)
            | none =>
              if clientAvailable = false then
                (.error (mkBadRequest ("Wallet client not available for chain: " ++
                  chainIdStr chainId)), s0, 0)
              else
                match providerResult with
                | .ok wallet =>
                  let ct := encryptFn (sharesJson wallet.externalServerKeyShares)
                  (.ok ⟨generateWalletId wallet.accountAddress dynamicNetworkId,
                      wallet.accountAddress, dynamicNetworkId, chainType, true⟩,
                    upsertKeyShare s1 ⟨wallet.accountAddress, dynamicNetworkId, ct⟩, 1)
                | .error e =>
                  (innerCatchCreate e s1 dynamicNetworkId chainType chainId, s1, 1)

/-- Embeds `WalletService.createWallet` (base-wallet-client.ts lines 679-968)
as one provisioning step: the try body (`createWalletTry`, which already
contains the inner catch around the provider call) under the outer catch
(`outerCatchCreate`).  The result triple is (response or thrown error,
resulting store, number of provider calls). -/
def createWalletModel (registry : List ChainMetadata) (encryptFn : String → String)
    (clientAvailable : Bool) (providerResult : Except JsVal CreateWalletResult)
    (s0 s1 : List KeyShareRecord) (chainId : ChainIdent) :
    Except JsVal WalletResponse × List KeyShareRecord × Nat :=
  match createWalletTry registry encryptFn clientAvailable providerResult s0 s1 chainId with
  | (.error er, st, calls) => (outerCatchCreate registry er st chainId, st, calls)
  | ok => ok

theorem outerCatch_err_of_status400_noMeta (registry : List ChainMetadata) (er : JsVal)
    (s : List KeyShareRecord) (chainId : ChainIdent)
    (h400 : statusIs er 400 = true) (hhttp : isHttpException er = true)
    (hns : getChainMetadata registry chainId = none) :
    outerCatchCreate registry er s chainId = .error er := by
  unfold outerCatchCreate
  rw [hhttp]
  have hcl : ∀ m, classifyDynamicSDKError er m = ⟨.multipleWallets, 400⟩ :=
    fun m => classify_of_status400 er m h400
  simp only [hcl, hns, Bool.true_or, reduceIte]

/-- C6 — for every chain identifier not in the registry, provisioning fails
with the unsupported-chain rejection, performs zero custody-provider calls,
and returns the store exactly as it was: the rejection happens before any
network call or store write. -/
theorem c6_unsupported_chain (registry : List ChainMetadata) (encryptFn : String → String)
    (clientAvailable : Bool) (providerResult : Except JsVal CreateWalletResult)
    (s0 s1 : List KeyShareRecord) (chainId : ChainIdent)
    (hns : getChainMetadata registry chainId = none) :
    createWalletModel registry encryptFn clientAvailable providerResult s0 s1 chainId =
      (.error (mkBadRequest ("Unsupported chain: " ++ chainIdStr chainId ++
        ". Please provide a valid chain ID or Dynamic network ID.")), s0, 0) := by
  have hsup : isSupportedChain registry chainId = false := by
    unfold isSupportedChain
    rw [hns]
    rfl
  have h400 : statusIs (mkBadRequest ("Unsupported chain: " ++ chainIdStr chainId ++
      ". Please provide a valid chain ID or Dynamic network ID.")) 400 = true := rfl
  have htry : createWalletTry registry encryptFn clientAvailable providerResult s0 s1 chainId =
      (.error (mkBadRequest ("Unsupported chain: " ++ chainIdStr chainId ++
        ". Please provide a valid chain ID or Dynamic network ID.")), s0, 0) := by
    unfold createWalletTry
    rw [hsup]
    simp only [reduceIte]
  unfold createWalletModel
  rw [htry]
  simp only [outerCatch_err_of_status400_noMeta registry _ s0 chainId h400 rfl hns]

/-- Witness for the C6 theorem: chain 999999 against an empty registry. -/
theorem c6_unsupported_chain_witness :
    createWalletModel [] id true (.error .vnull) [] [] (.num 999999) =
      (.error (mkBadRequest ("Unsupported chain: " ++ chainIdStr (.num 999999) ++
        ". Please provide a valid chain ID or Dynamic network ID.")), [], 0) :=
  c6_unsupported_chain [] id true (.error .vnull) [] [] (.num 999999) rfl

theorem getDynamicNetworkId_of_meta (registry : List ChainMetadata) (c : ChainIdent)
    (meta : ChainMetadata) (h : getChainMetadata registry c = some meta) :
    getDynamicNetworkId registry c = some meta.dynamicNetworkId := by
  unfold getDynamicNetworkId
  rw [h]
  rfl

theorem getChainType_of_meta (registry : List ChainMetadata) (c : ChainIdent)
    (meta : ChainMetadata) (h : getChainMetadata registry c = some meta) :
    getChainType registry c = some meta.chainType := by
  unfold getChainType
  rw [h]
  rfl

theorem isSupportedChain_of_meta (registry : List ChainMetadata) (c : ChainIdent)
    (meta : ChainMetadata) (h : getChainMetadata registry c = some meta) :
    isSupportedChain registry c = true := by
  unfold isSupportedChain
  rw [h]
  rfl

/-- C1 — idempotent provisioning: from a store with no record for the chain's
network, a first call that succeeds through the custody provider returns
isNew true with the provider's address and writes exactly one record, and a
second sequential call returns isNew false with the same address and the same
derived identity while performing zero custody-provider calls and zero store
writes — exactly one isNew true across the pair. -/
theorem c1_idempotent_provisioning (registry : List ChainMetadata)
    (encryptFn : String → String) (pr2 : Except JsVal CreateWalletResult)
    (s : List KeyShareRecord) (chainId : ChainIdent) (meta : ChainMetadata)
    (w : CreateWalletResult)
    (hmeta : getChainMetadata registry chainId = some meta)
    (hnone : (getUserWallets s).find? (fun v => v.network == meta.dynamicNetworkId) = none) :
    createWalletModel registry encryptFn true (.ok w) s s chainId =
      (.ok ⟨generateWalletId w.accountAddress meta.dynamicNetworkId, w.accountAddress,
        meta.dynamicNetworkId, meta.chainType, true⟩,
       s ++ [⟨w.accountAddress, meta.dynamicNetworkId,
         encryptFn (sharesJson w.externalServerKeyShares)⟩], 1)
    ∧ createWalletModel registry encryptFn true pr2
        (s ++ [⟨w.accountAddress, meta.dynamicNetworkId,
          encryptFn (sharesJson w.externalServerKeyShares)⟩])
        (s ++ [⟨w.accountAddress, meta.dynamicNetworkId,
          encryptFn (sharesJson w.externalServerKeyShares)⟩]) chainId =
      (.ok ⟨generateWalletId w.accountAddress meta.dynamicNetworkId, w.accountAddress,
        meta.dynamicNetworkId, getChainTypeFromNetwork meta.dynamicNetworkId, false⟩,
       s ++ [⟨w.accountAddress, meta.dynamicNetworkId,
         encryptFn (sharesJson w.externalServerKeyShares)⟩], 0) := by
  have hsup := isSupportedChain_of_meta registry chainId meta hmeta
  have hnet := getDynamicNetworkId_of_meta registry chainId meta hmeta
  have hct := getChainType_of_meta registry chainId meta hmeta
  have hsfind : s.find? (fun r => r.network == meta.dynamicNetworkId) = none := by
    rw [List.find?_eq_none]
    intro r hr hpr
    rw [List.find?_eq_none] at hnone
    exact hnone _ (List.mem_map_of_mem _ hr) hpr
  have hupsert : upsertKeyShare s ⟨w.accountAddress, meta.dynamicNetworkId,
      encryptFn (sharesJson w.externalServerKeyShares)⟩ =
      s ++ [⟨w.accountAddress, meta.dynamicNetworkId,
        encryptFn (sharesJson w.externalServerKeyShares)⟩] := by
    unfold upsertKeyShare
    have hany : s.any (sameKey ⟨w.accountAddress, meta.dynamicNetworkId,
        encryptFn (sharesJson w.externalServerKeyShares)⟩) = false := by
      by_contra hc
      rw [Bool.not_eq_false, List.any_eq_true] at hc
      obtain ⟨q, hq, hkey⟩ := hc
      rw [List.find?_eq_none] at hsfind
      refine hsfind q hq ?_
      simp only [sameKey, Bool.and_eq_true, beq_iff_eq] at hkey
      simp only [beq_iff_eq]
      exact hkey.2.symm
    rw [hany]
    rfl
  constructor
  · have htry : createWalletTry registry encryptFn true (.ok w) s s chainId =
        (.ok ⟨generateWalletId w.accountAddress meta.dynamicNetworkId, w.accountAddress,
          meta.dynamicNetworkId, meta.chainType, true⟩,
         s ++ [⟨w.accountAddress, meta.dynamicNetworkId,
           encryptFn (sharesJson w.externalServerKeyShares)⟩], 1) := by
      unfold createWalletTry
      rw [hsup]
      simp only [hmeta, hnet, hct, hnone, reduceIte, Bool.true_eq_false, if_false]
      rw [hupsert]
    unfold createWalletModel
    rw [htry]
  · have hview : getUserWallets (s ++ [⟨w.accountAddress, meta.dynamicNetworkId,
        encryptFn (sharesJson w.externalServerKeyShares)⟩]) =
        getUserWallets s ++ [⟨generateWalletId w.accountAddress meta.dynamicNetworkId,
          w.accountAddress, meta.dynamicNetworkId,
          getChainTypeFromNetwork meta.dynamicNetworkId⟩] := by
      unfold getUserWallets
      rw [List.map_append]
      rfl
    have hfind2 : (getUserWallets (s ++ [⟨w.accountAddress, meta.dynamicNetworkId,
        encryptFn (sharesJson w.externalServerKeyShares)⟩])).find?
          (fun v => v.network == meta.dynamicNetworkId) =
        some ⟨generateWalletId w.accountAddress meta.dynamicNetworkId, w.accountAddress,
          meta.dynamicNetworkId, getChainTypeFromNetwork meta.dynamicNetworkId⟩ := by
      rw [hview, List.find?_append, hnone]
      simp [List.find?]
    have htry : createWalletTry registry encryptFn true pr2
        (s ++ [⟨w.accountAddress, meta.dynamicNetworkId,
          encryptFn (sharesJson w.externalServerKeyShares)⟩])
        (s ++ [⟨w.accountAddress, meta.dynamicNetworkId,
          encryptFn (sharesJson w.externalServerKeyShares)⟩]) chainId =
        (.ok ⟨generateWalletId w.accountAddress meta.dynamicNetworkId, w.accountAddress,
          meta.dynamicNetworkId, getChainTypeFromNetwork meta.dynamicNetworkId, false⟩,
         s ++ [⟨w.accountAddress, meta.dynamicNetworkId,
           encryptFn (sharesJson w.externalServerKeyShares)⟩], 0) := by
      unfold createWalletTry
      rw [hsup]
      simp only [hmeta, hnet, hct, hfind2, reduceIte, Bool.true_eq_false, if_false]
    unfold createWalletModel
    rw [htry]

/-- Witness for the C1 theorem: two sequential provisioning calls for chain
421614 from an empty store. -/
theorem c1_idempotent_provisioning_witness :
    createWalletModel [⟨421614, "arbitrum-sepolia", "421614", "evm"⟩] id true
        (.ok ⟨"0xabc", ["share1"]⟩) [] [] (.num 421614) =
      (.ok ⟨generateWalletId "0xabc" "421614", "0xabc", "421614", "evm", true⟩,
       [⟨"0xabc", "421614", sharesJson ["share1"]⟩], 1) ∧
    createWalletModel [⟨421614, "arbitrum-sepolia", "421614", "evm"⟩] id true
        (.error .vnull) [⟨"0xabc", "421614", sharesJson ["share1"]⟩]
        [⟨"0xabc", "421614", sharesJson ["share1"]⟩] (.num 421614) =
      (.ok ⟨generateWalletId "0xabc" "421614", "0xabc", "421614", "evm", false⟩,
       [⟨"0xabc", "421614", sharesJson ["share1"]⟩], 0) :=
  c1_idempotent_provisioning [⟨421614, "arbitrum-sepolia", "421614", "evm"⟩] id
    (.error .vnull) [] (.num 421614) ⟨421614, "arbitrum-sepolia", "421614", "evm"⟩
    ⟨"0xabc", ["share1"]⟩ rfl rfl

theorem getUserWallets_find?_network (s : List KeyShareRecord) (networkId : String) :
    (getUserWallets s).find? (fun v => v.network == networkId) =
      (s.find? (fun r => r.network == networkId)).map
        (fun k => (⟨generateWalletId k.address k.network, k.address, k.network,
          getChainTypeFromNetwork k.network⟩ : WalletView)) := by
  unfold getUserWallets
  rw [List.find?_map]
  rfl

theorem extractWalletAddressFromError_ne_empty (e : JsVal) (a : String)
    (hx : extractWalletAddressFromError e = some a) : a ≠ "" := by
  intro hempty
  subst hempty
  unfold extractWalletAddressFromError at hx
  repeat' split at hx <;> try simp_all

theorem innerCatchPayloadAddr_of_extract (e : JsVal) (a : String)
    (hx : extractWalletAddressFromError e = some a) (ha : a ≠ "") :
    innerCatchPayloadAddr e = some a := by
  unfold innerCatchPayloadAddr
  simp [hx, optTruthy, ha]

theorem extract_none_of_payload_not_truthy (e : JsVal)
    (hpayn : optTruthy (innerCatchPayloadAddr e) = false) :
    extractWalletAddressFromError e = none := by
  cases hx : extractWalletAddressFromError e with
  | none => rfl
  | some a =>
    exfalso
    have ha := extractWalletAddressFromError_ne_empty e a hx
    have hp := innerCatchPayloadAddr_of_extract e a hx ha
    rw [hp] at hpayn
    simp [optTruthy, ha] at hpayn

theorem innerCatch_isMW_reduce (e : JsVal)
    (hmw : (classifyDynamicSDKError e (extractedErrorMessage e)).type = .multipleWallets) :
    (match (classifyDynamicSDKError e (extractedErrorMessage e)).type with
      | DynamicSDKErrorType.multipleWallets => true
      | _ => false) = true := by
  rw [hmw]

theorem innerCatch_ok_payload (e : JsVal) (s1 : List KeyShareRecord)
    (networkId chainType : String) (chainId : ChainIdent) (a : String)
    (hmw : (classifyDynamicSDKError e (extractedErrorMessage e)).type = .multipleWallets)
    (hpay : innerCatchPayloadAddr e = some a) (ha : a ≠ "") :
    innerCatchCreate e s1 networkId chainType chainId =
      .ok ⟨generateWalletId a networkId, a, networkId, chainType, false⟩ := by
  have hmatch := innerCatch_isMW_reduce e hmw
  have hopt : optTruthy (some a) = true := by simp [optTruthy, ha]
  unfold innerCatchCreate
  simp only [hmatch, Bool.or_true, Bool.true_or, hpay, hopt, reduceIte, Option.getD_some]

theorem innerCatch_ok_store (e : JsVal) (s1 : List KeyShareRecord)
    (networkId chainType : String) (chainId : ChainIdent) (r : KeyShareRecord)
    (hmw : (classifyDynamicSDKError e (extractedErrorMessage e)).type = .multipleWallets)
    (hpayn : optTruthy (innerCatchPayloadAddr e) = false)
    (hfind : s1.find? (fun q => q.network == networkId) = some r)
    (haddr : r.address ≠ "") :
    innerCatchCreate e s1 networkId chainType chainId =
      .ok ⟨generateWalletId r.address networkId, r.address, networkId, chainType, false⟩ := by
  have hmatch := innerCatch_isMW_reduce e hmw
  have hopt : optTruthy (some r.address) = true := by simp [optTruthy, haddr]
  unfold innerCatchCreate
  simp only [hmatch, Bool.or_true, Bool.true_or, hpayn, getUserWallets_find?_network, hfind,
    Option.map_some', hopt, reduceIte, Bool.false_eq_true, if_false, Option.getD_some]

theorem innerCatch_err (e : JsVal) (s1 : List KeyShareRecord)
    (networkId chainType : String) (chainId : ChainIdent)
    (hmw : (classifyDynamicSDKError e (extractedErrorMessage e)).type = .multipleWallets)
    (hpayn : optTruthy (innerCatchPayloadAddr e) = false)
    (hfindn : s1.find? (fun q => q.network == networkId) = none) :
    innerCatchCreate e s1 networkId chainType chainId = .error e := by
  have hmatch := innerCatch_isMW_reduce e hmw
  have hext := extract_none_of_payload_not_truthy e hpayn
  unfold innerCatchCreate
  simp only [hmatch, Bool.or_true, Bool.true_or, hpayn, getUserWallets_find?_network, hfindn,
    Option.map_none', hext, reduceIte, Bool.false_eq_true, if_false]

theorem outerCatch_rethrow (registry : List ChainMetadata) (e : JsVal)
    (s1 : List KeyShareRecord) (chainId : ChainIdent) (meta : ChainMetadata)
    (hmeta : getChainMetadata registry chainId = some meta)
    (hfindn : s1.find? (fun q => q.network == meta.dynamicNetworkId) = none)
    (hhttp : isHttpException e = true) :
    outerCatchCreate registry e s1 chainId = .error e := by
  have hnet := getDynamicNetworkId_of_meta registry chainId meta hmeta
  unfold outerCatchCreate
  rw [hhttp]
  simp only [hmeta, hnet, getUserWallets_find?_network, hfindn, Option.map_none', reduceIte]
  split
  · rfl
  · rfl

theorem outerCatch_wrap (registry : List ChainMetadata) (e : JsVal)
    (s1 : List KeyShareRecord) (chainId : ChainIdent)
    (hhttp : isHttpException e = false) :
    outerCatchCreate registry e s1 chainId =
      .error (mkInternalServerError ("Failed to create wallet: " ++
        firstTruthyStr [getErrorMessage e] "Unknown error")) := by
  unfold outerCatchCreate
  rw [hhttp]
  simp only [Bool.false_eq_true, if_false]

theorem createWallet_provider_error_step (registry : List ChainMetadata)
    (encryptFn : String → String) (s0 s1 : List KeyShareRecord) (chainId : ChainIdent)
    (meta : ChainMetadata) (e : JsVal)
    (hmeta : getChainMetadata registry chainId = some meta)
    (h0 : (getUserWallets s0).find? (fun v => v.network == meta.dynamicNetworkId) = none) :
    createWalletModel registry encryptFn true (.error e) s0 s1 chainId =
      (match innerCatchCreate e s1 meta.dynamicNetworkId meta.chainType chainId with
       | .error er => (outerCatchCreate registry er s1 chainId, s1, 1)
       | .ok resp => (.ok resp, s1, 1)) := by
  have hsup := isSupportedChain_of_meta registry chainId meta hmeta
  have hnet := getDynamicNetworkId_of_meta registry chainId meta hmeta
  have hct := getChainType_of_meta registry chainId meta hmeta
  have htry : createWalletTry registry encryptFn true (.error e) s0 s1 chainId =
      (innerCatchCreate e s1 meta.dynamicNetworkId meta.chainType chainId, s1, 1) := by
    unfold createWalletTry
    rw [hsup]
    simp only [hmeta, hnet, hct, h0, reduceIte, Bool.true_eq_false, if_false]
  unfold createWalletModel
  rw [htry]
  cases hinner : innerCatchCreate e s1 meta.dynamicNetworkId meta.chainType chainId <;> rfl

/-- C4 — the already-provisioned recovery path: when the custody-provider call
fails with a failure classified as already_provisioned (multiple_wallets), the
orchestrator (1) returns isNew false with the address extracted from the error
payload when one is there, else (2) re-queries the key-share store — the
snapshot seen at recovery time, which a racing request may have populated —
and returns isNew false with the stored address when a record for the chain's
network exists, and (3) only when both yield nothing surfaces the error (an
HttpException is re-thrown unchanged, anything else is wrapped as an internal
server error), with the store untouched in every branch. -/
theorem c4_already_provisioned_recovery (registry : List ChainMetadata)
    (encryptFn : String → String) (s0 s1 : List KeyShareRecord) (chainId : ChainIdent)
    (meta : ChainMetadata) (e : JsVal)
    (hmeta : getChainMetadata registry chainId = some meta)
    (h0 : (getUserWallets s0).find? (fun v => v.network == meta.dynamicNetworkId) = none)
    (hmw : (classifyDynamicSDKError e (extractedErrorMessage e)).type = .multipleWallets) :
    (∀ a : String, innerCatchPayloadAddr e = some a → a ≠ "" →
      createWalletModel registry encryptFn true (.error e) s0 s1 chainId =
        (.ok ⟨generateWalletId a meta.dynamicNetworkId, a, meta.dynamicNetworkId,
          meta.chainType, false⟩, s1, 1))
    ∧ (∀ r : KeyShareRecord, optTruthy (innerCatchPayloadAddr e) = false →
      s1.find? (fun q => q.network == meta.dynamicNetworkId) = some r → r.address ≠ "" →
      createWalletModel registry encryptFn true (.error e) s0 s1 chainId =
        (.ok ⟨generateWalletId r.address meta.dynamicNetworkId, r.address,
          meta.dynamicNetworkId, meta.chainType, false⟩, s1, 1))
    ∧ (optTruthy (innerCatchPayloadAddr e) = false →
      s1.find? (fun q => q.network == meta.dynamicNetworkId) = none →
      createWalletModel registry encryptFn true (.error e) s0 s1 chainId =
        ((if isHttpException e then Except.error e
          else .error (mkInternalServerError ("Failed to create wallet: " ++
            firstTruthyStr [getErrorMessage e] "Unknown error"))), s1, 1)) := by
  refine ⟨?_, ?_, ?_⟩
  · intro a hpay ha
    rw [createWallet_provider_error_step registry encryptFn s0 s1 chainId meta e hmeta h0,
      innerCatch_ok_payload e s1 meta.dynamicNetworkId meta.chainType chainId a hmw hpay ha]
  · intro r hpayn hfind haddr
    rw [createWallet_provider_error_step registry encryptFn s0 s1 chainId meta e hmeta h0,
      innerCatch_ok_store e s1 meta.dynamicNetworkId meta.chainType chainId r hmw hpayn
        hfind haddr]
  · intro hpayn hfindn
    rw [createWallet_provider_error_step registry encryptFn s0 s1 chainId meta e hmeta h0,
      innerCatch_err e s1 meta.dynamicNetworkId meta.chainType chainId hmw hpayn hfindn]
    cases hhttp : isHttpException e with
    | true =>
      have houter := outerCatch_rethrow registry e s1 chainId meta hmeta hfindn hhttp
      simp only [houter, hhttp, reduceIte]
    | false =>
      have houter := outerCatch_wrap registry e s1 chainId hhttp
      simp only [houter, hhttp, Bool.false_eq_true, if_false]

/-- A concrete already-provisioned failure as the custody client throws it: a
BadRequestException carrying the existing wallet address in its details. -/
def c4ProviderError : JsVal :=
  .vhttp 400
    (JsVal.obj [("message", .vstr "Multiple wallets per chain not allowed"),
      ("details", JsVal.obj [("existingWalletAddress", .vstr "0xdef"),
        ("chainId", .vnum 421614), ("dynamicNetworkId", .vstr "421614")])])
    "Multiple wallets per chain not allowed"
    "BadRequestException: Multiple wallets per chain not allowed"

/-- Witness for the C4 theorem: payload recovery at a concrete error. -/
theorem c4_already_provisioned_recovery_witness :
    createWalletModel [⟨421614, "arbitrum-sepolia", "421614", "evm"⟩] id true
        (.error c4ProviderError) [] [] (.num 421614) =
      (.ok ⟨generateWalletId "0xdef" "421614", "0xdef", "421614", "evm", false⟩, [], 1) :=
  (c4_already_provisioned_recovery [⟨421614, "arbitrum-sepolia", "421614", "evm"⟩] id
    [] [] (.num 421614) ⟨421614, "arbitrum-sepolia", "421614", "evm"⟩ c4ProviderError
    rfl rfl (by decide)).1 "0xdef" rfl (by decide)

theorem beqStr_comm (a b : String) : (a == b) = (b == a) := by
  by_cases h : a = b
  · subst h
    rfl
  · rw [beq_eq_false_iff_ne.mpr h, beq_eq_false_iff_ne.mpr (Ne.symm h)]

theorem sameKey_comm (a b : KeyShareRecord) : sameKey a b = sameKey b a := by
  unfold sameKey
  rw [beqStr_comm a.address, beqStr_comm a.network]

theorem sameKey_update_right (a b : KeyShareRecord) (c : String) :
    sameKey a { b with encryptedKeyShares := c } = sameKey a b := rfl

theorem sameKey_update_left (a b : KeyShareRecord) (c : String) :
    sameKey { a with encryptedKeyShares := c } b = sameKey a b := rfl

theorem keysNodupB_map (f : KeyShareRecord → KeyShareRecord)
    (hf : ∀ a b, sameKey (f a) (f b) = sameKey a b) (s : List KeyShareRecord) :
    keysNodupB (s.map f) = keysNodupB s := by
  induction s with
  | nil => rfl
  | cons q s ih =>
    have hfun : ((fun x => !sameKey (f q) x) ∘ f) = fun x => !sameKey q x := by
      funext x
      simp [Function.comp, hf]
    simp only [List.map_cons, keysNodupB, List.all_map, hfun, ih]

theorem keysNodupB_append_single (s : List KeyShareRecord) (r : KeyShareRecord)
    (h : keysNodupB s = true) (hnone : s.any (sameKey r) = false) :
    keysNodupB (s ++ [r]) = true := by
  induction s with
  | nil => rfl
  | cons q s ih =>
    simp only [keysNodupB, Bool.and_eq_true] at h
    simp only [List.any_cons, Bool.or_eq_false_iff] at hnone
    have h3 : (!sameKey q r) = true := by
      rw [sameKey_comm, hnone.1]
      rfl
    simp only [List.cons_append, keysNodupB, List.append_eq, List.all_append, Bool.and_eq_true]
    exact ⟨⟨h.1, by simp [h3]⟩, ih h.2 hnone.2⟩

theorem upsert_preserves_keysNodup (s : List KeyShareRecord) (r : KeyShareRecord)
    (h : keysNodupB s = true) : keysNodupB (upsertKeyShare s r) = true := by
  by_cases hany : s.any (sameKey r) = true
  · unfold upsertKeyShare
    rw [if_pos hany, keysNodupB_map]
    · exact h
    · intro a b
      by_cases ha : sameKey r a = true <;> by_cases hb : sameKey r b = true <;>
        simp [ha, hb, sameKey_update_left, sameKey_update_right]
  · unfold upsertKeyShare
    rw [if_neg hany]
    exact keysNodupB_append_single s r h (Bool.eq_false_iff.mpr hany)

theorem countP_map_sameKey (r : KeyShareRecord) (c : String) (s : List KeyShareRecord) :
    (s.map (fun q => if sameKey r q then { q with encryptedKeyShares := c } else q)).countP
      (fun q => sameKey r q) = s.countP (fun q => sameKey r q) := by
  induction s with
  | nil => rfl
  | cons q s ih =>
    simp only [List.map_cons, List.countP_cons, ih]
    by_cases hq : sameKey r q = true <;> simp [hq, sameKey_update_right]

theorem countP_sameKey_one_of_mem (r : KeyShareRecord) (s : List KeyShareRecord)
    (h : keysNodupB s = true) (hany : s.any (sameKey r) = true) :
    s.countP (fun q => sameKey r q) = 1 := by
  induction s with
  | nil => simp at hany
  | cons q s ih =>
    simp only [keysNodupB, Bool.and_eq_true] at h
    simp only [List.any_cons, Bool.or_eq_true] at hany
    by_cases hq : sameKey r q = true
    · have hzero : s.countP (fun x => sameKey r x) = 0 := by
        rw [List.countP_eq_zero]
        intro x hx hrx
        have hqx := (List.all_eq_true.mp h.1) x hx
        simp only [sameKey, Bool.and_eq_true, beq_iff_eq] at hq hrx
        have : sameKey q x = true := by
          simp only [sameKey, Bool.and_eq_true, beq_iff_eq]
          exact ⟨hq.1.symm.trans hrx.1, hq.2.symm.trans hrx.2⟩
        simp [this] at hqx
      simp [List.countP_cons, hq, hzero]
    · have hany' : s.any (sameKey r) = true := by
        cases hany with
        | inl h1 => exact absurd h1 hq
        | inr h2 => exact h2
      simp [List.countP_cons, hq, ih h.2 hany']

theorem upsert_countP (s : List KeyShareRecord) (r : KeyShareRecord)
    (h : keysNodupB s = true) :
    (upsertKeyShare s r).countP (fun q => sameKey r q) = 1 := by
  by_cases hany : s.any (sameKey r) = true
  · unfold upsertKeyShare
    rw [if_pos hany, countP_map_sameKey]
    exact countP_sameKey_one_of_mem r s h hany
  · have hzero : s.countP (fun q => sameKey r q) = 0 := by
      rw [List.countP_eq_zero]
      intro x hx hpx
      exact hany (List.any_eq_true.mpr ⟨x, hx, hpx⟩)
    unfold upsertKeyShare
    rw [if_neg hany, List.countP_append, hzero]
    simp [List.countP_cons, sameKey]

theorem upsert_last_write (s : List KeyShareRecord) (r : KeyShareRecord) :
    ∀ q ∈ upsertKeyShare s r, sameKey r q = true →
      q.encryptedKeyShares = r.encryptedKeyShares := by
  by_cases hany : s.any (sameKey r) = true
  · unfold upsertKeyShare
    rw [if_pos hany]
    intro q hq hkey
    rw [List.mem_map] at hq
    obtain ⟨q0, _, rfl⟩ := hq
    by_cases hc : sameKey r q0 = true
    · simp [hc]
    · simp [hc] at hkey
  · unfold upsertKeyShare
    rw [if_neg hany]
    intro q hq hkey
    rw [List.mem_append] at hq
    cases hq with
    | inl hmem => exact absurd (List.any_eq_true.mpr ⟨q, hmem, hkey⟩) hany
    | inr hr =>
      simp only [List.mem_singleton] at hr
      subst hr
      rfl

theorem upsert_no_delete (s : List KeyShareRecord) (r q : KeyShareRecord) (hq : q ∈ s) :
    ∃ p, p ∈ upsertKeyShare s r ∧ sameKey q p = true := by
  by_cases hany : s.any (sameKey r) = true
  · refine ⟨if sameKey r q then { q with encryptedKeyShares := r.encryptedKeyShares } else q,
      ?_, ?_⟩
    · unfold upsertKeyShare
      rw [if_pos hany]
      exact List.mem_map_of_mem _ hq
    · by_cases hc : sameKey r q = true
      · rw [if_pos hc]
        simp [sameKey]
      · rw [if_neg hc]
        simp [sameKey]
  · refine ⟨q, ?_, by simp [sameKey]⟩
    unfold upsertKeyShare
    rw [if_neg hany]
    exact List.mem_append_left _ hq

theorem createWalletTry_store (registry : List ChainMetadata) (encryptFn : String → String)
    (clientAvailable : Bool) (providerResult : Except JsVal CreateWalletResult)
    (s0 s1 : List KeyShareRecord) (chainId : ChainIdent) :
    (createWalletTry registry encryptFn clientAvailable providerResult s0 s1 chainId).2.1 = s0 ∨
    (createWalletTry registry encryptFn clientAvailable providerResult s0 s1 chainId).2.1 = s1 ∨
    ∃ rec, (createWalletTry registry encryptFn clientAvailable providerResult s0 s1
      chainId).2.1 = upsertKeyShare s1 rec := by
  unfold createWalletTry
  repeat' split
  all_goals first
    | exact Or.inl rfl
    | exact Or.inr (Or.inl rfl)
    | exact Or.inr (Or.inr ⟨_, rfl⟩)

theorem createWalletModel_store (registry : List ChainMetadata) (encryptFn : String → String)
    (clientAvailable : Bool) (providerResult : Except JsVal CreateWalletResult)
    (s0 s1 : List KeyShareRecord) (chainId : ChainIdent) :
    (createWalletModel registry encryptFn clientAvailable providerResult s0 s1 chainId).2.1 =
      (createWalletTry registry encryptFn clientAvailable providerResult s0 s1 chainId).2.1 := by
  unfold createWalletModel
  cases htry : createWalletTry registry encryptFn clientAvailable providerResult s0 s1 chainId
    with
  | mk res rest =>
    cases rest with
    | mk st calls => cases res <;> rfl

/-- C7 — the key-share store holds at most one record per (address, network)
key: the upsert write preserves key uniqueness; after an upsert exactly one
record carries the written key; every record carrying that key holds the last
ciphertext written (so writing the same key twice leaves one record with the
second ciphertext); upsert never deletes a key that was present; and the
orchestrator — whose only store write is this upsert — preserves the
uniqueness invariant across a full provisioning step. -/
theorem c7_store_key_uniqueness :
    (∀ (s : List KeyShareRecord) (r : KeyShareRecord), keysNodupB s = true →
      keysNodupB (upsertKeyShare s r) = true)
    ∧ (∀ (s : List KeyShareRecord) (r : KeyShareRecord), keysNodupB s = true →
      (upsertKeyShare s r).countP (fun q => sameKey r q) = 1)
    ∧ (∀ (s : List KeyShareRecord) (r : KeyShareRecord), ∀ q ∈ upsertKeyShare s r,
      sameKey r q = true → q.encryptedKeyShares = r.encryptedKeyShares)
    ∧ (∀ (s : List KeyShareRecord) (r q : KeyShareRecord), q ∈ s →
      ∃ p, p ∈ upsertKeyShare s r ∧ sameKey q p = true)
    ∧ (∀ (registry : List ChainMetadata) (encryptFn : String → String)
        (clientAvailable : Bool) (providerResult : Except JsVal CreateWalletResult)
        (s0 s1 : List KeyShareRecord) (chainId : ChainIdent),
      keysNodupB s0 = true → keysNodupB s1 = true →
      keysNodupB (createWalletModel registry encryptFn clientAvailable providerResult
        s0 s1 chainId).2.1 = true) := by
  refine ⟨upsert_preserves_keysNodup, upsert_countP, upsert_last_write, upsert_no_delete, ?_⟩
  intro registry encryptFn clientAvailable providerResult s0 s1 chainId h0 h1
  rw [createWalletModel_store]
  rcases createWalletTry_store registry encryptFn clientAvailable providerResult s0 s1 chainId
    with h | h | ⟨rec, h⟩
  · rw [h]
    exact h0
  · rw [h]
    exact h1
  · rw [h]
    exact upsert_preserves_keysNodup s1 rec h1

/-- Witness for the C7 theorem at a concrete store and record. -/
theorem c7_store_key_uniqueness_witness :
    keysNodupB (upsertKeyShare [⟨"0xa", "evm", "c1"⟩] ⟨"0xa", "evm", "c2"⟩) = true ∧
    (upsertKeyShare [⟨"0xa", "evm", "c1"⟩] ⟨"0xa", "evm", "c2"⟩).countP
      (fun q => sameKey ⟨"0xa", "evm", "c2"⟩ q) = 1 ∧
    (⟨"0xa", "evm", "c2"⟩ : KeyShareRecord).encryptedKeyShares = "c2" ∧
    (∃ p, p ∈ upsertKeyShare [⟨"0xa", "evm", "c1"⟩] ⟨"0xa", "evm", "c2"⟩ ∧
      sameKey ⟨"0xa", "evm", "c1"⟩ p = true) ∧
    keysNodupB (createWalletModel [] id true (.error .vnull)
      [⟨"0xa", "evm", "c1"⟩] [⟨"0xa", "evm", "c1"⟩] (.num 1)).2.1 = true :=
  ⟨c7_store_key_uniqueness.1 _ _ (by decide),
   c7_store_key_uniqueness.2.1 _ _ (by decide),
   c7_store_key_uniqueness.2.2.1 [⟨"0xa", "evm", "c1"⟩] ⟨"0xa", "evm", "c2"⟩
     ⟨"0xa", "evm", "c2"⟩ (by decide) (by decide),
   c7_store_key_uniqueness.2.2.2.1 _ _ ⟨"0xa", "evm", "c1"⟩ (by decide),
   c7_store_key_uniqueness.2.2.2.2 [] id true (.error .vnull) _ _ (.num 1)
     (by decide) (by decide)⟩

/-! ## The encryption service

Modelled from the spec: the EncryptionService (§4.2) — its implementation
file, common/encryption.service.ts, is not under src/.  The spec and the
repository README fix AES-256-GCM authenticated encryption whose ciphertext
embeds the nonce and the auth tag, decryption failing on tag mismatch or
malformed input and never partially succeeding.  The model idealises the AEAD
over byte lists: a keystream cipher for the body and a position-weighted
checksum as the authentication tag — an idealisation of the GCM tag which,
for bodies up to the claimed 10,000 bytes, provably changes whenever any
single byte of nonce or body changes.
-/

/-- Nonce length in bytes (GCM standard nonce, 12 bytes). -/
def ENC_NONCE_LEN : Nat := 12

/-- Authentication tag length in bytes in the model. -/
def ENC_TAG_LEN : Nat := 4

/-- Modelled from the spec: the keystream derived from key and nonce. -/
def keyStream (key nonce : List Nat) (i : Nat) : Nat :=
  (key.foldl (fun a b => a * 31 + b) 17 + nonce.foldl (fun a b => a * 31 + b) 19 + 131 * i) % 256

/-- Body encryption: byte-wise addition of the keystream modulo 256. -/
def encBodyGo (key nonce : List Nat) : Nat → List Nat → List Nat
  | _, [] => []
  | i, b :: bs => (b + keyStream key nonce i) % 256 :: encBodyGo key nonce (i + 1) bs

/-- Body decryption: byte-wise subtraction of the keystream modulo 256. -/
def decBodyGo (key nonce : List Nat) : Nat → List Nat → List Nat
  | _, [] => []
  | i, b :: bs => (b + 256 - keyStream key nonce i) % 256 :: decBodyGo key nonce (i + 1) bs

/-- Position-weighted sum of a byte list, starting at weight i+1. -/
def wsum : Nat → List Nat → Nat
  | _, [] => 0
  | i, d :: ds => (i + 1) * d + wsum (i + 1) ds

/-- Modelled from the spec: the authentication tag over key, nonce and
encrypted body, reduced to 32 bits. -/
def macTag (key data : List Nat) : Nat :=
  (key.foldl (fun a b => a * 257 + b) 7 + wsum 0 data) % 4294967296

/-- The 4 tag bytes, little endian. -/
def tagBytes (t : Nat) : List Nat :=
  [t % 256, t / 256 % 256, t / 65536 % 256, t / 16777216 % 256]

/-- Modelled from the spec: `encrypt` of the EncryptionService — the
ciphertext embeds whatever decryption needs: nonce, then encrypted body, then
the authentication tag over nonce and body. -/
def encrypt (key nonce : List Nat) (x : List Nat) : List Nat :=
  (nonce ++ encBodyGo key nonce 0 x) ++
    tagBytes (macTag key (nonce ++ encBodyGo key nonce 0 x))

/-- Modelled from the spec: `decrypt` of the EncryptionService — fails
(`none`, the DecryptionError) on malformed input or tag mismatch, and never
partially succeeds. -/
def decrypt (key : List Nat) (c : List Nat) : Option (List Nat) :=
  if c.length < ENC_NONCE_LEN + ENC_TAG_LEN then none
  else
    let nonce := c.take ENC_NONCE_LEN
    let rest := c.drop ENC_NONCE_LEN
    let body := rest.take (rest.length - ENC_TAG_LEN)
    let tag := rest.drop (rest.length - ENC_TAG_LEN)
    if tag = tagBytes (macTag key (nonce ++ body)) then
      some (decBodyGo key nonce 0 body)
    else none

theorem keyStream_lt (key nonce : List Nat) (i : Nat) : keyStream key nonce i < 256 :=
  Nat.mod_lt _ (by norm_num)

theorem encBodyGo_length (key nonce : List Nat) (x : List Nat) :
    ∀ i, (encBodyGo key nonce i x).length = x.length := by
  induction x with
  | nil => intro i; rfl
  | cons b bs ih =>
    intro i
    simp [encBodyGo, ih]

theorem decBody_encBody (key nonce : List Nat) (x : List Nat)
    (hx : ∀ b ∈ x, b < 256) :
    ∀ i, decBodyGo key nonce i (encBodyGo key nonce i x) = x := by
  induction x with
  | nil => intro i; rfl
  | cons b bs ih =>
    intro i
    have hb : b < 256 := hx b (List.mem_cons_self b bs)
    have hk : keyStream key nonce i < 256 := keyStream_lt key nonce i
    have hbs : ∀ y ∈ bs, y < 256 := fun y hy => hx y (List.mem_cons_of_mem b hy)
    simp only [encBodyGo, decBodyGo, ih hbs]
    congr 1
    omega

theorem decrypt_encrypt (key nonce x : List Nat) (hn : nonce.length = ENC_NONCE_LEN)
    (hx : ∀ b ∈ x, b < 256) : decrypt key (encrypt key nonce x) = some x := by
  have hn12 : nonce.length = 12 := hn
  have hbodylen : (encBodyGo key nonce 0 x).length = x.length := encBodyGo_length key nonce x 0
  have hdatalen : (nonce ++ encBodyGo key nonce 0 x).length = 12 + x.length := by
    rw [List.length_append, hn12, hbodylen]
  have hclen : ((nonce ++ encBodyGo key nonce 0 x) ++
      tagBytes (macTag key (nonce ++ encBodyGo key nonce 0 x))).length = 16 + x.length := by
    rw [List.length_append, hdatalen]
    show 12 + x.length + 4 = 16 + x.length
    omega
  have hpn : ((nonce ++ encBodyGo key nonce 0 x) ++
      tagBytes (macTag key (nonce ++ encBodyGo key nonce 0 x))).take ENC_NONCE_LEN = nonce := by
    rw [List.take_append_of_le_length (by rw [hdatalen]; exact by norm_num [ENC_NONCE_LEN]),
      show ENC_NONCE_LEN = nonce.length from hn.symm, List.take_left]
  have hpr : ((nonce ++ encBodyGo key nonce 0 x) ++
      tagBytes (macTag key (nonce ++ encBodyGo key nonce 0 x))).drop ENC_NONCE_LEN =
      encBodyGo key nonce 0 x ++
        tagBytes (macTag key (nonce ++ encBodyGo key nonce 0 x)) := by
    rw [List.drop_append_of_le_length (by rw [hdatalen]; exact by norm_num [ENC_NONCE_LEN]),
      show ENC_NONCE_LEN = nonce.length from hn.symm, List.drop_left]
  have hrestlen : (encBodyGo key nonce 0 x ++
      tagBytes (macTag key (nonce ++ encBodyGo key nonce 0 x))).length = x.length + 4 := by
    rw [List.length_append, hbodylen]
    rfl
  have hpb : (encBodyGo key nonce 0 x ++
      tagBytes (macTag key (nonce ++ encBodyGo key nonce 0 x))).take
        ((encBodyGo key nonce 0 x ++
          tagBytes (macTag key (nonce ++ encBodyGo key nonce 0 x))).length - ENC_TAG_LEN) =
      encBodyGo key nonce 0 x := by
    rw [hrestlen, show x.length + 4 - ENC_TAG_LEN = (encBodyGo key nonce 0 x).length by
      rw [hbodylen]; rfl, List.take_left]
  have hpt : (encBodyGo key nonce 0 x ++
      tagBytes (macTag key (nonce ++ encBodyGo key nonce 0 x))).drop
        ((encBodyGo key nonce 0 x ++
          tagBytes (macTag key (nonce ++ encBodyGo key nonce 0 x))).length - ENC_TAG_LEN) =
      tagBytes (macTag key (nonce ++ encBodyGo key nonce 0 x)) := by
    rw [hrestlen, show x.length + 4 - ENC_TAG_LEN = (encBodyGo key nonce 0 x).length by
      rw [hbodylen]; rfl, List.drop_left]
  unfold encrypt decrypt
  rw [if_neg (by rw [hclen]; norm_num [ENC_NONCE_LEN, ENC_TAG_LEN])]
  simp only [hpn, hpr, hpb, hpt, if_pos rfl]
  rw [decBody_encBody key nonce x hx 0]
  simp

theorem encBodyGo_lt (key nonce : List Nat) (x : List Nat) :
    ∀ i, ∀ b ∈ encBodyGo key nonce i x, b < 256 := by
  induction x with
  | nil => intro i b hb; simp [encBodyGo] at hb
  | cons c cs ih =>
    intro i b hb
    simp only [encBodyGo, List.mem_cons] at hb
    cases hb with
    | inl h => rw [h]; exact Nat.mod_lt _ (by norm_num)
    | inr h => exact ih (i + 1) b h

theorem getD_append_left (u v : List Nat) (i : Nat) (h : i < u.length) :
    (u ++ v).getD i 0 = u.getD i 0 := by
  simp [List.getD, List.getElem?_append, h]

theorem getD_append_right (u v : List Nat) (i : Nat) (h : u.length ≤ i) :
    (u ++ v).getD i 0 = v.getD (i - u.length) 0 := by
  simp [List.getD, List.getElem?_append_right h]

theorem take_len_append (u v : List Nat) (n : Nat) (h : n = u.length) : (u ++ v).take n = u := by
  subst h
  exact List.take_left u v

theorem drop_len_append (u v : List Nat) (n : Nat) (h : n = u.length) : (u ++ v).drop n = v := by
  subst h
  exact List.drop_left u v

theorem wsum_set_int (b : Nat) (l : List Nat) :
    ∀ (i j : Nat), j < l.length →
      (wsum i (l.set j b) : ℤ) =
        (wsum i l : ℤ) + ((i : ℤ) + j + 1) * ((b : ℤ) - l.getD j 0) := by
  induction l with
  | nil => intro i j hj; simp at hj
  | cons d ds ih =>
    intro i j hj
    cases j with
    | zero =>
      simp only [List.set, wsum, List.getD_cons_zero]
      push_cast
      ring
    | succ j =>
      have hj' : j < ds.length := by simpa using hj
      simp only [List.set, wsum, List.getD_cons_succ]
      push_cast
      rw [ih (i + 1) j hj']
      push_cast
      ring

theorem macTag_lt (key data : List Nat) : macTag key data < 4294967296 :=
  Nat.mod_lt _ (by norm_num)

theorem tagBytes_inj (a b : Nat) (ha : a < 4294967296) (hb : b < 4294967296)
    (h : tagBytes a = tagBytes b) : a = b := by
  simp only [tagBytes, List.cons.injEq, and_true] at h
  omega

theorem getD_lt_of_forall (l : List Nat) (j : Nat) (hj : j < l.length)
    (hl : ∀ b ∈ l, b < 256) : l.getD j 0 < 256 := by
  have he : l.getD j 0 = l[j] := by simp [List.getD, List.getElem?_eq_getElem hj]
  rw [he]
  exact hl _ (List.getElem_mem hj)

theorem macTag_ne_single (key data : List Nat) (j b' : Nat)
    (hj : j < data.length) (hlen : data.length ≤ 10012)
    (hdata : ∀ d ∈ data, d < 256) (hb : b' < 256) (hne : b' ≠ data.getD j 0) :
    macTag key (data.set j b') ≠ macTag key data := by
  intro heq
  unfold macTag at heq
  have hws := wsum_set_int b' data 0 j hj
  have heqz : (((key.foldl (fun a b => a * 257 + b) 7 + wsum 0 (data.set j b') : ℕ)) : ℤ) %
      4294967296 =
      (((key.foldl (fun a b => a * 257 + b) 7 + wsum 0 data : ℕ)) : ℤ) % 4294967296 := by
    have := congrArg (fun n : ℕ => (n : ℤ)) heq
    push_cast at this
    push_cast
    exact this
  have hdvd0 := Int.emod_eq_emod_iff_emod_sub_eq_zero.mp heqz
  have hdvd := Int.dvd_of_emod_eq_zero hdvd0
  have hdiff : (((key.foldl (fun a b => a * 257 + b) 7 + wsum 0 (data.set j b') : ℕ)) : ℤ) -
      (((key.foldl (fun a b => a * 257 + b) 7 + wsum 0 data : ℕ)) : ℤ) =
      ((j : ℤ) + 1) * ((b' : ℤ) - (data.getD j 0 : ℤ)) := by
    push_cast
    rw [hws]
    ring
  rw [hdiff] at hdvd
  obtain ⟨k, hk⟩ := hdvd
  have hd : (data.getD j 0 : ℤ) < 256 := by
    exact_mod_cast getD_lt_of_forall data j hj hdata
  have hd0 : (0 : ℤ) ≤ (data.getD j 0 : ℤ) := Int.natCast_nonneg _
  have hb2 : (b' : ℤ) < 256 := by exact_mod_cast hb
  have hb0 : (0 : ℤ) ≤ (b' : ℤ) := Int.natCast_nonneg _
  have hjb : (j : ℤ) + 1 ≤ 10012 := by
    have : j + 1 ≤ 10012 := by omega
    exact_mod_cast this
  have hjb0 : (0 : ℤ) < (j : ℤ) + 1 := by positivity
  have he0 : (b' : ℤ) - (data.getD j 0 : ℤ) ≠ 0 := by
    intro h0
    apply hne
    have : (b' : ℤ) = (data.getD j 0 : ℤ) := by linarith
    exact_mod_cast this
  have hub : ((j : ℤ) + 1) * ((b' : ℤ) - (data.getD j 0 : ℤ)) ≤ 2553060 := by nlinarith
  have hlb : -2553060 ≤ ((j : ℤ) + 1) * ((b' : ℤ) - (data.getD j 0 : ℤ)) := by nlinarith
  have hprodne : ((j : ℤ) + 1) * ((b' : ℤ) - (data.getD j 0 : ℤ)) ≠ 0 :=
    mul_ne_zero (by positivity) he0
  rw [hk] at hub hlb hprodne
  omega

theorem set_ne_of_valid (l : List Nat) (j b' : Nat) (hj : j < l.length)
    (hb : b' ≠ l.getD j 0) : l.set j b' ≠ l := by
  intro he
  apply hb
  have hget : (l.set j b').getD j 0 = b' := by
    rw [List.getD, List.get?_eq_getElem?, List.getElem?_set_self']
    simp [List.getElem?_eq_getElem, hj]
  rw [← hget, he]

theorem decrypt_eq_none_of_tag_mismatch (key c : List Nat) (h16 : 16 ≤ c.length)
    (hmis : c.drop (c.length - 4) ≠ tagBytes (macTag key (c.take (c.length - 4)))) :
    decrypt key c = none := by
  have e1 : (c.drop 12).drop ((c.drop 12).length - 4) = c.drop (c.length - 4) := by
    rw [List.length_drop, List.drop_drop]
    rw [show 12 + (c.length - 12 - 4) = c.length - 4 from by omega]
  have e2 : c.take 12 ++ (c.drop 12).take ((c.drop 12).length - 4) = c.take (c.length - 4) := by
    rw [List.length_drop]
    have := List.take_add c 12 (c.length - 12 - 4)
    rw [show (12 : Nat) + (c.length - 12 - 4) = c.length - 4 from by omega] at this
    exact this.symm
  unfold decrypt
  rw [if_neg (by show ¬ c.length < ENC_NONCE_LEN + ENC_TAG_LEN; norm_num [ENC_NONCE_LEN, ENC_TAG_LEN]; omega)]
  show (if (c.drop 12).drop ((c.drop 12).length - 4) =
      tagBytes (macTag key (c.take 12 ++ (c.drop 12).take ((c.drop 12).length - 4))) then _ else none) = none
  rw [e1, e2, if_neg hmis]

theorem decrypt_tamper (key nonce x : List Nat) (i b' : Nat)
    (hn : nonce.length = ENC_NONCE_LEN) (hnb : ∀ b ∈ nonce, b < 256)
    (hxlen : x.length ≤ 10000)
    (hi : i < (encrypt key nonce x).length) (hb : b' < 256)
    (hne : b' ≠ (encrypt key nonce x).getD i 0) :
    decrypt key ((encrypt key nonce x).set i b') = none := by
  have hn12 : nonce.length = 12 := hn
  have hbodylen : (encBodyGo key nonce 0 x).length = x.length := encBodyGo_length key nonce x 0
  have hdlen : (nonce ++ encBodyGo key nonce 0 x).length = 12 + x.length := by
    rw [List.length_append, hn12, hbodylen]
  have htlen : (tagBytes (macTag key (nonce ++ encBodyGo key nonce 0 x))).length = 4 := rfl
  have hclen : (encrypt key nonce x).length = (12 + x.length) + 4 := by
    unfold encrypt
    rw [List.length_append, hdlen, htlen]
  have hdbytes : ∀ d ∈ nonce ++ encBodyGo key nonce 0 x, d < 256 := by
    intro d hd
    rcases List.mem_append.mp hd with h | h
    · exact hnb d h
    · exact encBodyGo_lt key nonce x 0 d h
  have hdlen2 : (nonce ++ encBodyGo key nonce 0 x).length ≤ 10012 := by omega
  by_cases hcase : i < (nonce ++ encBodyGo key nonce 0 x).length
  · -- mutation in the nonce-plus-body region: the recomputed tag differs
    have hset : (encrypt key nonce x).set i b' =
        (nonce ++ encBodyGo key nonce 0 x).set i b' ++
          tagBytes (macTag key (nonce ++ encBodyGo key nonce 0 x)) := by
      unfold encrypt
      rw [List.set_append, if_pos hcase]
    have hslen : ((nonce ++ encBodyGo key nonce 0 x).set i b').length =
        (nonce ++ encBodyGo key nonce 0 x).length := List.length_set _ _ _
    have hlen16 : 16 ≤ ((encrypt key nonce x).set i b').length := by
      rw [List.length_set, hclen]; omega
    apply decrypt_eq_none_of_tag_mismatch key _ hlen16
    have hsub : ((encrypt key nonce x).set i b').length - 4 =
        (nonce ++ encBodyGo key nonce 0 x).length := by
      rw [List.length_set, hclen, hdlen]
      omega
    have hpt : ((encrypt key nonce x).set i b').take
        (((encrypt key nonce x).set i b').length - 4) =
        (nonce ++ encBodyGo key nonce 0 x).set i b' := by
      rw [hsub, hset]
      exact take_len_append _ _ _ hslen.symm
    have hpd : ((encrypt key nonce x).set i b').drop
        (((encrypt key nonce x).set i b').length - 4) =
        tagBytes (macTag key (nonce ++ encBodyGo key nonce 0 x)) := by
      rw [hsub, hset]
      exact drop_len_append _ _ _ hslen.symm
    rw [hpt, hpd]
    intro heq
    have hmeq : macTag key (nonce ++ encBodyGo key nonce 0 x) =
        macTag key ((nonce ++ encBodyGo key nonce 0 x).set i b') :=
      tagBytes_inj _ _ (macTag_lt _ _) (macTag_lt _ _) heq
    have hgd : b' ≠ (nonce ++ encBodyGo key nonce 0 x).getD i 0 := by
      intro h0
      apply hne
      rw [h0]
      show (nonce ++ encBodyGo key nonce 0 x).getD i 0 = (encrypt key nonce x).getD i 0
      unfold encrypt
      exact (getD_append_left _ _ i hcase).symm
    exact macTag_ne_single key (nonce ++ encBodyGo key nonce 0 x) i b'
      hcase hdlen2 hdbytes hb hgd hmeq.symm
  · -- mutation in the tag region: the stored tag no longer matches
    have hi4 : i - (nonce ++ encBodyGo key nonce 0 x).length < 4 := by
      rw [hclen] at hi
      omega
    have hset : (encrypt key nonce x).set i b' =
        (nonce ++ encBodyGo key nonce 0 x) ++
          (tagBytes (macTag key (nonce ++ encBodyGo key nonce 0 x))).set
            (i - (nonce ++ encBodyGo key nonce 0 x).length) b' := by
      unfold encrypt
      rw [List.set_append, if_neg hcase]
    have hlen16 : 16 ≤ ((encrypt key nonce x).set i b').length := by
      rw [List.length_set, hclen]; omega
    apply decrypt_eq_none_of_tag_mismatch key _ hlen16
    have hsub : ((encrypt key nonce x).set i b').length - 4 =
        (nonce ++ encBodyGo key nonce 0 x).length := by
      rw [List.length_set, hclen, hdlen]
      omega
    have hpt : ((encrypt key nonce x).set i b').take
        (((encrypt key nonce x).set i b').length - 4) =
        nonce ++ encBodyGo key nonce 0 x := by
      rw [hsub, hset]
      exact take_len_append _ _ _ rfl
    have hpd : ((encrypt key nonce x).set i b').drop
        (((encrypt key nonce x).set i b').length - 4) =
        (tagBytes (macTag key (nonce ++ encBodyGo key nonce 0 x))).set
          (i - (nonce ++ encBodyGo key nonce 0 x).length) b' := by
      rw [hsub, hset]
      exact drop_len_append _ _ _ rfl
    rw [hpt, hpd]
    apply set_ne_of_valid
    · rw [htlen]; exact hi4
    · intro h0
      apply hne
      rw [h0]
      show (tagBytes (macTag key (nonce ++ encBodyGo key nonce 0 x))).getD
          (i - (nonce ++ encBodyGo key nonce 0 x).length) 0 = (encrypt key nonce x).getD i 0
      unfold encrypt
      exact (getD_append_right _ _ i (Nat.le_of_not_lt hcase)).symm

/-- C8: encryption round-trips and detects single-byte tampering.  For every
key, every 12-byte nonce and every byte string x of length at most 10,000,
decrypting the ciphertext produced by encrypt returns exactly x, and mutating
any single byte of that ciphertext to a different byte value makes decrypt
fail (return none, the DecryptionError) — it never returns a different
plaintext. -/
theorem c8_encryption_roundtrip_and_tamper (key nonce x : List Nat) (i b' : Nat)
    (hn : nonce.length = ENC_NONCE_LEN) (hnb : ∀ b ∈ nonce, b < 256)
    (hx : ∀ b ∈ x, b < 256) (hxlen : x.length ≤ 10000)
    (hi : i < (encrypt key nonce x).length) (hb : b' < 256)
    (hne : b' ≠ (encrypt key nonce x).getD i 0) :
    decrypt key (encrypt key nonce x) = some x ∧
      decrypt key ((encrypt key nonce x).set i b') = none :=
  ⟨decrypt_encrypt key nonce x hn hx,
   decrypt_tamper key nonce x i b' hn hnb hxlen hi hb hne⟩

/-- Witness for the C8 theorem at a concrete key, nonce and plaintext,
mutating ciphertext byte 0. -/
theorem c8_encryption_roundtrip_and_tamper_witness :
    decrypt [1, 2] (encrypt [1, 2] [0, 1, 2, 3, 4, 5, 6, 7, 8, 9, 10, 11] [5, 6, 7]) =
      some [5, 6, 7] ∧
    decrypt [1, 2]
      ((encrypt [1, 2] [0, 1, 2, 3, 4, 5, 6, 7, 8, 9, 10, 11] [5, 6, 7]).set 0 9) = none :=
  c8_encryption_roundtrip_and_tamper [1, 2] [0, 1, 2, 3, 4, 5, 6, 7, 8, 9, 10, 11]
    [5, 6, 7] 0 9 (by decide) (by decide) (by decide) (by decide) (by decide) (by decide)
    (by decide)

/-! ## C9: threshold signature scheme and share backup across all variants

The repository holds four chain-family variants of wallet creation, each
calling the custody SDK createWalletAccount:
- the api EVM client (src/apps/api/src/auth/auth.service.ts, lines 290-293),
- the api Solana client (src/apps/api/src/wallet/clients/solana-wallet-client.ts,
  lines 232-235),
- the vencura app WalletService (src/apps/vencura/src/wallet/wallet.service.ts,
  lines 65-68),
- the second vencura WalletService copy (src/unnamed/part_009, lines 79-82).
Each is embedded as the literal options object it passes. -/

inductive ThresholdSignatureScheme
  | TWO_OF_TWO
  | TWO_OF_THREE
  | THREE_OF_FIVE
deriving DecidableEq

structure CreateWalletAccountOptions where
  thresholdSignatureScheme : ThresholdSignatureScheme
  backUpToClientShareService : Bool
deriving DecidableEq

/-- Options passed by the EVM client of the api app. -/
def evmWalletClientCreateOptions : CreateWalletAccountOptions :=
  ⟨ThresholdSignatureScheme.TWO_OF_TWO, false⟩

/-- Options passed by SolanaWalletClient.createWallet. -/
def solanaWalletClientCreateOptions : CreateWalletAccountOptions :=
  ⟨ThresholdSignatureScheme.TWO_OF_TWO, false⟩

/-- Options passed by the vencura app WalletService.createWallet. -/
def vencuraWalletServiceCreateOptions : CreateWalletAccountOptions :=
  ⟨ThresholdSignatureScheme.TWO_OF_TWO, false⟩

/-- Options passed by the second vencura WalletService copy. -/
def vencuraApiWalletServiceCreateOptions : CreateWalletAccountOptions :=
  ⟨ThresholdSignatureScheme.TWO_OF_TWO, false⟩

/-- All createWalletAccount call sites of the repository. -/
def allCreateWalletAccountOptions : List CreateWalletAccountOptions :=
  [evmWalletClientCreateOptions, solanaWalletClientCreateOptions,
   vencuraWalletServiceCreateOptions, vencuraApiWalletServiceCreateOptions]

/-- C9: every chain-family variant of createWallet requests a 2-of-2 threshold
signature scheme and sets the provider-side share-backup flag to false. -/
theorem c9_two_of_two_no_backup :
    ∀ o ∈ allCreateWalletAccountOptions,
      o.thresholdSignatureScheme = ThresholdSignatureScheme.TWO_OF_TWO ∧
        o.backUpToClientShareService = false := by
  decide

/-- Witness for the C9 theorem at the Solana client's options. -/
theorem c9_two_of_two_no_backup_witness :
    solanaWalletClientCreateOptions ∈ allCreateWalletAccountOptions ∧
      (solanaWalletClientCreateOptions.thresholdSignatureScheme =
          ThresholdSignatureScheme.TWO_OF_TWO ∧
        solanaWalletClientCreateOptions.backUpToClientShareService = false) :=
  ⟨by decide, c9_two_of_two_no_backup solanaWalletClientCreateOptions (by decide)⟩
